import Mathlib

/-!
# Verification of the vimtextarea modal editing engine

Shallow embedding of the Go package `vimtextarea` (files `movement.go`,
`undo.go`, the editing operations file and the key-handler file) together
with the completion-state type it manipulates.  Go byte strings are
modelled as `List Char` (the engine indexes its strings byte-wise and the
claims only exercise single-byte characters); Go `int` fields that stay
non-negative in every reachable state are modelled as `Nat` (Go's
`max(0, x - y)` idiom coincides with truncated subtraction), and the undo
index, which starts at `-1`, is an `Int`.
-/

namespace Vim

/-- Go strings, viewed as their byte sequences. -/
abbrev Str := List Char

/-- `unicode.IsSpace` restricted to the byte range, which is all the Go code
ever passes to it (it casts single bytes to runes). -/
def goIsSpace (c : Char) : Bool :=
  c.toNat ∈ [9, 10, 11, 12, 13, 32, 133, 160]

/-- `unicode.IsPunct` restricted to the byte range (Unicode category P within
Latin-1). -/
def goIsPunct (c : Char) : Bool :=
  c.toNat ∈ [33, 34, 35, 37, 38, 39, 40, 41, 42, 44, 45, 46, 47, 58, 59, 63,
    64, 91, 92, 93, 95, 123, 125, 161, 167, 171, 182, 183, 187, 191]

/-- `Mode` from the model-type file: Normal / Insert / Visual. -/
inductive Mode where
  | Normal
  | Insert
  | Visual
deriving DecidableEq, Repr

/-- `Position` (row, col). -/
structure Position where
  Row : Nat
  Col : Nat
deriving DecidableEq, Repr

/-- `Selection` (start, end), not pre-ordered. -/
structure Selection where
  Start : Position
  End : Position
deriving DecidableEq, Repr

/-- `CommandState`: pending operator, its count, the motion count and the
awaiting-motion flag. -/
structure CommandState where
  operator : Str
  count : Nat
  motionCount : Nat
  awaitingMotion : Bool
deriving DecidableEq, Repr

/-- `UndoState`: one snapshot (full line array plus cursor). -/
structure UndoState where
  content : List Str
  cursor : Position
deriving DecidableEq, Repr

/-- `UndoHistory`: bounded snapshot list with a movable index (starts at -1). -/
structure UndoHistory where
  states : List UndoState
  index : Int
  maxSize : Nat
deriving DecidableEq, Repr

/-- `completion.CompletionItem`. -/
structure CompletionItem where
  Text : Str
  Description : Str
  Score : Int
deriving DecidableEq, Repr

/-- `completion.CompletionType`. -/
inductive CompletionType where
  | SlashCommand
  | FileFolder
deriving DecidableEq, Repr

/-- `completion.CompletionState`.  The Go field `Type` is spelled `CType`
here because `Type` is reserved in Lean. -/
structure CompletionState where
  Active : Bool
  Trigger : Char
  Query : Str
  Items : List CompletionItem
  Selected : Int
  CType : CompletionType
deriving DecidableEq, Repr

/-- `CompletionState.Reset`. -/
def CompletionState.Reset (_c : CompletionState) : CompletionState :=
  { Active := false, Trigger := Char.ofNat 0, Query := [], Items := [],
    Selected := 0, CType := CompletionType.SlashCommand }

/-- `CompletionState.SelectNext`. -/
def CompletionState.SelectNext (c : CompletionState) : CompletionState :=
  if c.Items.length > 0 then
    { c with Selected := (c.Selected + 1) % (c.Items.length : Int) }
  else c

/-- `CompletionState.SelectPrev`. -/
def CompletionState.SelectPrev (c : CompletionState) : CompletionState :=
  if c.Items.length > 0 then
    { c with Selected := (c.Selected - 1 + c.Items.length) % (c.Items.length : Int) }
  else c

/-- `CompletionState.GetSelectedItem`: `some` exactly when the Go method
returns a non-nil pointer. -/
def CompletionState.GetSelectedItem (c : CompletionState) : Option CompletionItem :=
  if c.Items.length > 0 ∧ 0 ≤ c.Selected ∧ c.Selected < (c.Items.length : Int) then
    some (c.Items.getD c.Selected.toNat ⟨[], [], 0⟩)
  else none

/-- The `Model` struct of the engine.  The search fields and the
`completionEngine` pointer are omitted: the engine is constructed with a nil
completion engine and no key event ever sets or reads them (the nil engine
makes `updateCompletionItems` a no-op, see below). -/
structure Model where
  mode : Mode
  content : List Str
  cursor : Position
  selection : Option Selection
  clipboard : Str
  width : Nat
  height : Nat
  placeholder : Str
  focused : Bool
  scrollOffset : Nat
  lastFindChar : Char
  lastFindDir : Int
  lastFindType : Int
  commandState : CommandState
  inputCount : Nat
  awaitingReplaceChar : Bool
  replaceCount : Nat
  inInsertSession : Bool
  undoHistory : UndoHistory
  completionState : CompletionState
  completionStartPos : Position
deriving DecidableEq, Repr

/-- Line at a row (Go indexes panic out of bounds; every reachable access is
in bounds, see the bounds invariant). -/
def Model.lineAt (m : Model) (r : Nat) : Str :=
  m.content.getD r []

/-! ## movement.go -/

/-- A Go `for col < len(line) && p(line[col]) { col++ }` loop, by structural
recursion on the remaining length (which bounds the iteration count exactly:
the column grows by one per iteration and stops at the length). -/
def advanceWhileAux (line : Str) (p : Char → Bool) : Nat → Nat → Nat
  | 0, col => col
  | fuel + 1, col =>
    if col < line.length ∧ p (line.getD col ' ') then
      advanceWhileAux line p fuel (col + 1)
    else col

/-- Entry point of the forward scan loop. -/
def advanceWhile (line : Str) (p : Char → Bool) (col : Nat) : Nat :=
  advanceWhileAux line p (line.length - col) col

/-- A Go `for col > 0 && p(line[col]) { col-- }` loop (structural on the
column; the zero case is the loop guard `col > 0` failing). -/
def retreatWhileAt (line : Str) (p : Char → Bool) : Nat → Nat
  | 0 => 0
  | col + 1 =>
    if p (line.getD (col + 1) ' ') then retreatWhileAt line p col
    else col + 1

/-- A Go `for col > 0 && p(line[col-1]) { col-- }` loop. -/
def retreatWhileBefore (line : Str) (p : Char → Bool) : Nat → Nat
  | 0 => 0
  | col + 1 =>
    if p (line.getD col ' ') then retreatWhileBefore line p col
    else col + 1

/-- `isWordBoundary` (the receiver is unused in the source). -/
def isWordBoundary (c : Char) (isWORD : Bool) : Bool :=
  if isWORD then goIsSpace c else goIsSpace c || goIsPunct c

/-- `validateCursor`. -/
def Model.validateCursor (m : Model) (pos : Position) : Position :=
  if m.content.length = 0 then ⟨0, 0⟩
  else
    let row := min pos.Row (m.content.length - 1)
    let lineLen := (m.lineAt row).length
    let maxCol := if m.mode = Mode.Normal ∧ lineLen > 0 then lineLen - 1 else lineLen
    ⟨row, min pos.Col maxCol⟩

/-- `moveLeft`: `max(0, Col-count)` is truncated subtraction. -/
def Model.moveLeft (m : Model) (count : Nat) : Position :=
  { m.cursor with Col := m.cursor.Col - count }

/-- `moveRight`. -/
def Model.moveRight (m : Model) (count : Nat) : Position :=
  if m.cursor.Row < m.content.length then
    { m.cursor with Col := min (m.lineAt m.cursor.Row).length (m.cursor.Col + count) }
  else m.cursor

/-- `moveUp`: `max(0, Row-count)` is truncated subtraction. -/
def Model.moveUp (m : Model) (count : Nat) : Position :=
  m.validateCursor { m.cursor with Row := m.cursor.Row - count }

/-- `moveDown`. -/
def Model.moveDown (m : Model) (count : Nat) : Position :=
  m.validateCursor { m.cursor with Row := min (m.content.length - 1) (m.cursor.Row + count) }

/-- `moveToFirstNonWhitespace`: first non-space column; the column is left
unchanged when the line has none. -/
def Model.moveToFirstNonWhitespace (m : Model) : Position :=
  if m.cursor.Row < m.content.length then
    match (m.lineAt m.cursor.Row).findIdx? (fun r => !(goIsSpace r)) with
    | some i => { m.cursor with Col := i }
    | none => m.cursor
  else m.cursor

/-- `moveToEndOfLine`: column = line length (one past the last character). -/
def Model.moveToEndOfLine (m : Model) : Position :=
  if m.cursor.Row < m.content.length then
    { m.cursor with Col := (m.lineAt m.cursor.Row).length }
  else m.cursor

/-- `moveToLine` (`max(0, line)` is the identity on `Nat`). -/
def Model.moveToLine (m : Model) (line : Nat) : Position :=
  m.validateCursor { Row := min line (m.content.length - 1), Col := 0 }

/-- `moveToLastLine` (the `lastRow < 0` guard is truncated subtraction). -/
def Model.moveToLastLine (m : Model) : Position :=
  m.validateCursor { Row := m.content.length - 1, Col := 0 }

/-- `nextWord`. -/
def Model.nextWord (m : Model) (pos : Position) (isWORD : Bool) : Position :=
  if pos.Row ≥ m.content.length then pos
  else
    let line := m.lineAt pos.Row
    -- skip current word
    let col1 := advanceWhile line (fun c => !(isWordBoundary c isWORD)) pos.Col
    -- skip whitespace
    let col2 := advanceWhile line (fun c => goIsSpace c) col1
    if col2 ≥ line.length ∧ pos.Row < m.content.length - 1 then
      ⟨pos.Row + 1, 0⟩
    else
      ⟨pos.Row, col2⟩

/-- `prevWord`.  The source's `pos.Row < 0` guard is vacuous for `Nat` rows;
it returns `pos` (same row) there too. -/
def Model.prevWord (m : Model) (pos : Position) (isWORD : Bool) : Position :=
  let line := m.lineAt pos.Row
  let col0 := if pos.Col > 0 then pos.Col - 1 else pos.Col
  -- skip whitespace
  let col1 := retreatWhileAt line (fun c => goIsSpace c) col0
  -- skip to beginning of word
  let col2 := retreatWhileBefore line (fun c => !(isWordBoundary c isWORD)) col1
  ⟨pos.Row, col2⟩

/-- The inner `for j := i; j < len && !boundary(line[j]); j++ { i = j }` loop
of `nextWordEnd`'s next-line scan (fuel = remaining length, an exact bound). -/
def lastRunAux (line : Str) (isWORD : Bool) : Nat → Nat → Nat → Nat
  | 0, _j, i => i
  | fuel + 1, j, i =>
    if j < line.length ∧ !(isWordBoundary (line.getD j ' ') isWORD) then
      lastRunAux line isWORD fuel (j + 1) j
    else i

/-- Entry point of the last-of-run scan. -/
def lastRun (line : Str) (isWORD : Bool) (j i : Nat) : Nat :=
  lastRunAux line isWORD (line.length - j) j i

/-- `nextWordEnd`, by structural recursion on the number of rows below the
position (the source recurses only to the next row while it is below the
last one, so this fuel is exact). -/
def nextWordEndAux (m : Model) (isWORD : Bool) : Nat → Position → Position
  | 0, pos => pos
  | fuel + 1, pos =>
    let line := m.lineAt pos.Row
    if pos.Col ≥ line.length then
      -- at end of line: scan the next line for the end of its first word
      if pos.Row < m.content.length - 1 then
        let nextLine := m.lineAt (pos.Row + 1)
        match nextLine.findIdx? (fun c => !(goIsSpace c)) with
        | some i => ⟨pos.Row + 1, lastRun nextLine isWORD i i⟩
        | none => pos
      else pos
    else
      let atWordEnd := pos.Col < line.length ∧
        !(isWordBoundary (line.getD pos.Col ' ') isWORD) ∧
        (pos.Col + 1 ≥ line.length ∨ isWordBoundary (line.getD (pos.Col + 1) ' ') isWORD)
      let col1 := if atWordEnd then pos.Col + 1 else pos.Col
      -- skip any whitespace or punctuation
      let col2 := advanceWhile line (fun c => goIsSpace c || isWordBoundary c isWORD) col1
      if col2 ≥ line.length then
        if pos.Row < m.content.length - 1 then
          nextWordEndAux m isWORD fuel ⟨pos.Row + 1, 0⟩
        else pos
      else
        if col2 < line.length ∧ !(isWordBoundary (line.getD col2 ' ') isWORD) then
          let col3 := advanceWhile line (fun c => !(isWordBoundary c isWORD)) col2
          let col4 := if col3 > 0 then col3 - 1 else col3
          ⟨pos.Row, col4⟩
        else pos

/-- `nextWordEnd` (the `pos.Row >= len(m.content)` guard is the zero-fuel
case: the fuel is exactly the number of rows from `pos.Row` to the end). -/
def Model.nextWordEnd (m : Model) (pos : Position) (isWORD : Bool) : Position :=
  nextWordEndAux m isWORD (m.content.length - pos.Row) pos

/-- `n`-fold application of a single motion step, i.e. the
`for i := 0; i < count; i++ { pos = step(pos) }` loops. -/
def iterPos (f : Position → Position) : Nat → Position → Position
  | 0, p => p
  | n + 1, p => iterPos f n (f p)

/-- `moveWordForward`. -/
def Model.moveWordForward (m : Model) (count : Nat) : Position :=
  iterPos (fun p => m.nextWord p false) count m.cursor

/-- `moveWORDForward`. -/
def Model.moveWORDForward (m : Model) (count : Nat) : Position :=
  iterPos (fun p => m.nextWord p true) count m.cursor

/-- `moveWordBackward`. -/
def Model.moveWordBackward (m : Model) (count : Nat) : Position :=
  iterPos (fun p => m.prevWord p false) count m.cursor

/-- `moveWORDBackward`. -/
def Model.moveWORDBackward (m : Model) (count : Nat) : Position :=
  iterPos (fun p => m.prevWord p true) count m.cursor

/-- `moveWordEnd`. -/
def Model.moveWordEnd (m : Model) (count : Nat) : Position :=
  iterPos (fun p => m.nextWordEnd p false) count m.cursor

/-- `moveWORDEnd`. -/
def Model.moveWORDEnd (m : Model) (count : Nat) : Position :=
  iterPos (fun p => m.nextWordEnd p true) count m.cursor

/-- `repeatFind` (unimplemented in the source: returns the cursor). -/
def Model.repeatFind (m : Model) (_dir : Int) : Position :=
  m.cursor

/-- `adjustScroll`.  The source's `scrollOffset < 0` clamp is vacuous on
`Nat`; `maxOffset`'s negative clamp is truncated subtraction. -/
def Model.adjustScroll (m : Model) : Model :=
  if m.content.length ≤ m.height then { m with scrollOffset := 0 }
  else
    let o1 := if m.cursor.Row < m.scrollOffset then m.cursor.Row else m.scrollOffset
    let o2 := if m.cursor.Row ≥ o1 + m.height then m.cursor.Row - m.height + 1 else o1
    let maxOffset := m.content.length - m.height
    let o3 := if o2 > maxOffset then maxOffset else o2
    { m with scrollOffset := o3 }

/-! ## undo.go -/

/-- `startInsertSession`. -/
def Model.startInsertSession (m : Model) : Model :=
  if !m.inInsertSession then { m with inInsertSession := true } else m

/-- `saveUndoState`. -/
def Model.saveUndoState (m : Model) : Model :=
  -- dedup: compare against the snapshot at the current index, if any
  if 0 ≤ m.undoHistory.index ∧ m.undoHistory.index < (m.undoHistory.states.length : Int)
      ∧ (m.undoHistory.states.getD m.undoHistory.index.toNat ⟨[], ⟨0, 0⟩⟩).content = m.content
  then m
  else
    let state : UndoState := ⟨m.content, m.cursor⟩
    -- truncate any redo states beyond the current index
    let states1 :=
      if m.undoHistory.index < (m.undoHistory.states.length : Int) - 1 then
        m.undoHistory.states.take (m.undoHistory.index + 1).toNat
      else m.undoHistory.states
    let states2 := states1 ++ [state]
    let index2 := m.undoHistory.index + 1
    -- evict the oldest entry when over capacity
    if states2.length > m.undoHistory.maxSize then
      { m with undoHistory := { m.undoHistory with states := states2.drop 1, index := index2 - 1 } }
    else
      { m with undoHistory := { m.undoHistory with states := states2, index := index2 } }

/-- `endInsertSession`. -/
def Model.endInsertSession (m : Model) : Model :=
  if m.inInsertSession then
    { m.saveUndoState with inInsertSession := false }
  else m

/- `contentEquals` is inlined in `saveUndoState` above as list equality (the
Go loop compares lengths and then every line). -/

/-- `undo`. -/
def Model.undo (m : Model) : Model :=
  if m.undoHistory.index ≤ 0 then m
  else
    let index1 := m.undoHistory.index - 1
    let state := m.undoHistory.states.getD index1.toNat ⟨[], ⟨0, 0⟩⟩
    Model.adjustScroll
      { m with undoHistory := { m.undoHistory with index := index1 },
               content := state.content, cursor := state.cursor }

/-- `redo`. -/
def Model.redo (m : Model) : Model :=
  if m.undoHistory.index ≥ (m.undoHistory.states.length : Int) - 1 then m
  else
    let index1 := m.undoHistory.index + 1
    let state := m.undoHistory.states.getD index1.toNat ⟨[], ⟨0, 0⟩⟩
    Model.adjustScroll
      { m with undoHistory := { m.undoHistory with index := index1 },
               content := state.content, cursor := state.cursor }

/-! ## Editing operations (the `vimtextarea` text-editing file) -/

/-- Go slice `l[a:b]` (in-bounds in every reachable call). -/
def slice (l : Str) (a b : Nat) : Str :=
  (l.take b).drop a

/-- `strings.Join(lines, "\n")`. -/
def joinLines (lines : List Str) : Str :=
  List.intercalate ['\n'] lines

/-- `insertText`. -/
def Model.insertText (m : Model) (text : Str) : Model :=
  if m.cursor.Row ≥ m.content.length then m
  else
    let line := m.lineAt m.cursor.Row
    let before := line.take m.cursor.Col
    let after := line.drop m.cursor.Col
    { m with content := m.content.set m.cursor.Row (before ++ text ++ after),
             cursor := { m.cursor with Col := m.cursor.Col + text.length } }

/-- `insertNewLine`.  The trailing `m.adjustScroll()` of the source discards
its result (value receiver), so no scroll adjustment survives. -/
def Model.insertNewLine (m : Model) : Model :=
  if m.cursor.Row ≥ m.content.length then m
  else
    let line := m.lineAt m.cursor.Row
    let before := line.take m.cursor.Col
    let after := line.drop m.cursor.Col
    let content1 := m.content.set m.cursor.Row before
    { m with content := content1.take (m.cursor.Row + 1) ++ [after] ++ content1.drop (m.cursor.Row + 1),
             cursor := ⟨m.cursor.Row + 1, 0⟩ }

/-- `insertNewLineBelow` (its `m.adjustScroll()` result is also discarded). -/
def Model.insertNewLineBelow (m : Model) : Model :=
  { m with content := m.content.take (m.cursor.Row + 1) ++ [[]] ++ m.content.drop (m.cursor.Row + 1),
           cursor := ⟨m.cursor.Row + 1, 0⟩ }

/-- `insertNewLineAbove` (its `m.adjustScroll()` result is also discarded). -/
def Model.insertNewLineAbove (m : Model) : Model :=
  { m with content := m.content.take m.cursor.Row ++ [[]] ++ m.content.drop m.cursor.Row,
           cursor := { m.cursor with Col := 0 } }

/-- `backspace`. -/
def Model.backspace (m : Model) : Model :=
  if m.cursor.Col > 0 then
    let line := m.lineAt m.cursor.Row
    let before := line.take (m.cursor.Col - 1)
    let after := line.drop m.cursor.Col
    Model.adjustScroll
      { m with content := m.content.set m.cursor.Row (before ++ after),
               cursor := { m.cursor with Col := m.cursor.Col - 1 } }
  else if m.cursor.Row > 0 then
    -- join with the previous line
    let prevLine := m.lineAt (m.cursor.Row - 1)
    let currentLine := m.lineAt m.cursor.Row
    let content1 := m.content.set (m.cursor.Row - 1) (prevLine ++ currentLine)
    Model.adjustScroll
      { m with content := content1.take m.cursor.Row ++ content1.drop (m.cursor.Row + 1),
               cursor := ⟨m.cursor.Row - 1, prevLine.length⟩ }
  else m.adjustScroll

/-- One iteration of the `deleteChar` loop. -/
def Model.deleteCharOnce (m : Model) : Model :=
  if m.cursor.Row < m.content.length then
    let line := m.lineAt m.cursor.Row
    if m.cursor.Col < line.length then
      { m with content := (m.content.set m.cursor.Row
          (line.take m.cursor.Col ++ line.drop (m.cursor.Col + 1))) }
    else m
  else m

/-- `deleteChar`. -/
def Model.deleteChar (m : Model) (count : Nat) : Model :=
  let m1 := Model.deleteCharOnce^[count] m
  if count > 0 then m1.saveUndoState else m1

/-- The `replaceCharacter` loop
`for i := 0; i < count && col+i < len(line); i++ { line = ... }`,
structural on the remaining count (`fuel = count - i`, so `i < count` is the
successor pattern; the duplicated in-loop bounds check of the source is
always true inside the loop). -/
def replaceLoopAux (replacement : Str) (col : Nat) : Nat → Nat → Str → Str
  | 0, _i, line => line
  | fuel + 1, i, line =>
    if col + i < line.length then
      replaceLoopAux replacement col fuel (i + 1)
        (line.take (col + i) ++ replacement ++ line.drop (col + i + 1))
    else line

/-- `replaceCharacter`. -/
def Model.replaceCharacter (m : Model) (replacement : Str) (count : Nat) : Model :=
  if m.cursor.Row ≥ m.content.length then m
  else
    let line := m.lineAt m.cursor.Row
    let line1 := replaceLoopAux replacement m.cursor.Col count 0 line
    Model.saveUndoState { m with content := m.content.set m.cursor.Row line1 }

/-- `deleteLines`. -/
def Model.deleteLines (m : Model) (count : Nat) : Model :=
  let startRow := m.cursor.Row
  let endRow := min (startRow + count - 1) (m.content.length - 1)
  -- yank the lines to the clipboard
  let deletedLines := (List.range' startRow (endRow + 1 - startRow)).filterMap
    (fun i => if i < m.content.length then some (m.lineAt i) else none)
  let m1 := { m with clipboard := joinLines deletedLines }
  -- edge case: deleting all lines collapses to one empty line
  if m1.content.length ≤ count then
    Model.saveUndoState { m1 with content := [[]], cursor := ⟨0, 0⟩ }
  else
    let content1 := m1.content.take startRow ++ m1.content.drop (endRow + 1)
    let row1 := if m1.cursor.Row ≥ content1.length then content1.length - 1 else m1.cursor.Row
    Model.saveUndoState (Model.adjustScroll
      { m1 with content := content1, cursor := ⟨row1, 0⟩ })

/-- `yankLines`. -/
def Model.yankLines (m : Model) (count : Nat) : Model :=
  let startRow := m.cursor.Row
  let endRow := min (startRow + count - 1) (m.content.length - 1)
  let yankedLines := (List.range' startRow (endRow + 1 - startRow)).filterMap
    (fun i => if i < m.content.length then some (m.lineAt i) else none)
  { m with clipboard := joinLines yankedLines }

/-- `yankLine`. -/
def Model.yankLine (m : Model) : Model :=
  if m.cursor.Row < m.content.length then
    { m with clipboard := m.lineAt m.cursor.Row }
  else m

/-- `deleteToEndOfLine`. -/
def Model.deleteToEndOfLine (m : Model) : Model :=
  let m1 :=
    if m.cursor.Row < m.content.length then
      let line := m.lineAt m.cursor.Row
      if m.cursor.Col < line.length then
        { m with clipboard := line.drop m.cursor.Col,
                 content := m.content.set m.cursor.Row (line.take m.cursor.Col) }
      else m
    else m
  m1.saveUndoState

/-- `changeToEndOfLine`. -/
def Model.changeToEndOfLine (m : Model) : Model :=
  { m.deleteToEndOfLine.startInsertSession with mode := Mode.Insert }

/-- `changeLines`. -/
def Model.changeLines (m : Model) (count : Nat) : Model :=
  { (m.deleteLines count).startInsertSession with mode := Mode.Insert }

/-- `deleteRange`. -/
def Model.deleteRange (m : Model) (startPos endPos : Position) : Model :=
  let m1 :=
    if startPos.Row = endPos.Row then
      -- single line deletion
      let line := m.lineAt startPos.Row
      { m with clipboard := slice line startPos.Col endPos.Col,
               content := m.content.set startPos.Row (line.take startPos.Col ++ line.drop endPos.Col),
               cursor := startPos }
    else
      -- multi-line deletion
      let firstLine := m.lineAt startPos.Row
      let middle := (List.range' (startPos.Row + 1) (endPos.Row - (startPos.Row + 1))).map m.lineAt
      let lastPart := if endPos.Row < m.content.length
        then [(m.lineAt endPos.Row).take endPos.Col] else []
      let deletedText := firstLine.drop startPos.Col :: middle ++ lastPart
      let after := if endPos.Row < m.content.length
        then (m.lineAt endPos.Row).drop endPos.Col else []
      let merged := firstLine.take startPos.Col ++ after
      let content1 := (m.content.take startPos.Row ++ [merged]).take (startPos.Row + 1)
        ++ m.content.drop (endPos.Row + 1)
      { m with clipboard := joinLines deletedText,
               content := (content1.take (m.content.length - (endPos.Row - startPos.Row))),
               cursor := startPos }
  m1.saveUndoState

/-- `yankRange`. -/
def Model.yankRange (m : Model) (startPos endPos : Position) : Model :=
  if startPos.Row = endPos.Row then
    { m with clipboard := slice (m.lineAt startPos.Row) startPos.Col endPos.Col }
  else
    let firstLine := m.lineAt startPos.Row
    let middle := (List.range' (startPos.Row + 1) (endPos.Row - (startPos.Row + 1))).map m.lineAt
    let lastPart := if endPos.Row < m.content.length
      then [(m.lineAt endPos.Row).take endPos.Col] else []
    { m with clipboard := joinLines (firstLine.drop startPos.Col :: middle ++ lastPart) }

/-- `changeRange`. -/
def Model.changeRange (m : Model) (startPos endPos : Position) : Model :=
  { (m.deleteRange startPos endPos).startInsertSession with mode := Mode.Insert }

/-- `normalizeSelection`. -/
def normalizeSelection (sel : Selection) : Position × Position :=
  if sel.Start.Row > sel.End.Row ∨ (sel.Start.Row = sel.End.Row ∧ sel.Start.Col > sel.End.Col) then
    (sel.End, sel.Start)
  else (sel.Start, sel.End)

/-- `deleteSelection`.  Note: the single-line branch of the source never
writes the clipboard. -/
def Model.deleteSelection (m : Model) : Model :=
  match m.selection with
  | none => m
  | some sel =>
    let (s, e) := normalizeSelection sel
    let m1 :=
      if s.Row = e.Row then
        -- single line selection (no clipboard write in the source)
        let line := m.lineAt s.Row
        { m with content := m.content.set s.Row (line.take s.Col ++ line.drop e.Col),
                 cursor := s }
      else
        -- multi-line selection
        let deletedText := (List.range' s.Row (e.Row + 1 - s.Row)).map (fun row =>
          if row = s.Row then (m.lineAt row).drop s.Col
          else if row = e.Row then (m.lineAt row).take e.Col
          else m.lineAt row)
        let merged := (m.lineAt s.Row).take s.Col ++ (m.lineAt e.Row).drop e.Col
        { m with clipboard := joinLines deletedText,
                 content := ((m.content.take s.Row ++ [merged]).take (s.Row + 1)
                   ++ m.content.drop (e.Row + 1)).take (m.content.length - (e.Row - s.Row)),
                 cursor := s }
    m1.saveUndoState

/-- `yankSelection`. -/
def Model.yankSelection (m : Model) : Model :=
  match m.selection with
  | none => m
  | some sel =>
    let (s, e) := normalizeSelection sel
    if s.Row = e.Row then
      { m with clipboard := slice (m.lineAt s.Row) s.Col e.Col }
    else
      let yankedText := (List.range' s.Row (e.Row + 1 - s.Row)).map (fun row =>
        if row = s.Row then (m.lineAt row).drop s.Col
        else if row = e.Row then (m.lineAt row).take e.Col
        else m.lineAt row)
      { m with clipboard := joinLines yankedText }

/-- `strings.Split(s, "\n")`. -/
def splitLines (s : Str) : List Str :=
  s.splitOn '\n'

/-- `pasteAfter`. -/
def Model.pasteAfter (m : Model) : Model :=
  if m.clipboard = [] then m
  else
    let m1 :=
      if '\n' ∈ m.clipboard then
        -- paste as new line(s)
        let lines := splitLines m.clipboard
        { m with content := m.content.take (m.cursor.Row + 1) ++ lines ++ m.content.drop (m.cursor.Row + 1),
                 cursor := ⟨m.cursor.Row + 1, 0⟩ }
      else
        -- paste as text
        ({ m with cursor := m.moveRight 1 }).insertText m.clipboard
    m1.saveUndoState

/-- `pasteBefore`. -/
def Model.pasteBefore (m : Model) : Model :=
  if m.clipboard = [] then m
  else
    let m1 :=
      if '\n' ∈ m.clipboard then
        let lines := splitLines m.clipboard
        { m with content := m.content.take m.cursor.Row ++ lines ++ m.content.drop m.cursor.Row,
                 cursor := { m.cursor with Col := 0 } }
      else
        m.insertText m.clipboard
    m1.saveUndoState

/-! ## Key events

A `tea.KeyMsg` is dispatched on its `String()` and, in Insert mode, its
`Runes`.  A key event is either a rune burst (whose string is the runes
themselves) or one of the named keys the handlers inspect; every named key
string has length ≥ 2, so the single-character tests below see exactly the
rune events. -/

inductive Key where
  | chars (runes : List Char)
  | esc | enter | backspace | tab | left | right | up | down
  | ctrlR | ctrlN | ctrlP | ctrlY
deriving DecidableEq, Repr

/-- `msg.String()`. -/
def keyStr : Key → Str
  | .chars l => l
  | .esc => ['e', 's', 'c']
  | .enter => ['e', 'n', 't', 'e', 'r']
  | .backspace => ['b', 'a', 'c', 'k', 's', 'p', 'a', 'c', 'e']
  | .tab => ['t', 'a', 'b']
  | .left => ['l', 'e', 'f', 't']
  | .right => ['r', 'i', 'g', 'h', 't']
  | .up => ['u', 'p']
  | .down => ['d', 'o', 'w', 'n']
  | .ctrlR => ['c', 't', 'r', 'l', '+', 'r']
  | .ctrlN => ['c', 't', 'r', 'l', '+', 'n']
  | .ctrlP => ['c', 't', 'r', 'l', '+', 'p']
  | .ctrlY => ['c', 't', 'r', 'l', '+', 'y']

/-- `msg.Runes`. -/
def keyRunes : Key → List Char
  | .chars l => l
  | _ => []

/-- `int(key[0] - '0')`. -/
def digitVal (c : Char) : Nat := c.toNat - 48

/-- First byte of a key string. -/
def firstChar (s : Str) : Char := s.getD 0 ' '

/-! ## Completion plumbing of the key-handler file -/

/-- `updateCompletionItems`: the engine is constructed with a nil
`completionEngine` and no key event ever installs one; with a nil engine the
source returns the model unchanged. -/
def Model.updateCompletionItems (m : Model) : Model := m

/-- `if strings.HasPrefix(query, string(c)) { query = query[1:] }`. -/
def stripLeading (c : Char) (q : Str) : Str :=
  match q with
  | q0 :: rest => if q0 = c then rest else q
  | [] => q

/-- `shouldTriggerCompletion`. -/
def Model.shouldTriggerCompletion (m : Model) (char : Char) : Bool :=
  if m.cursor.Row ≥ m.content.length then false
  else
    let line := m.lineAt m.cursor.Row
    if char = '/' then m.cursor.Col = 0
    else if char = '@' then
      if m.cursor.Col = 0 then true
      else if 0 < m.cursor.Col ∧ m.cursor.Col ≤ line.length then
        let prevChar := line.getD (m.cursor.Col - 1) ' '
        prevChar ≠ '\\' ∧ prevChar ≠ '"'
      else false
    else false

/-- The `for i := col; i >= 0; i--` trigger scan of `extractCompletionQuery`:
nearest in-bounds index at or before `i` holding the trigger byte
(structural on `i`; the zero case is the last loop iteration). -/
def findTriggerFrom (line : Str) (trigger : Char) : Nat → Option Nat
  | 0 => if 0 < line.length ∧ line.getD 0 ' ' = trigger then some 0 else none
  | i + 1 =>
    if i + 1 < line.length ∧ line.getD (i + 1) ' ' = trigger then some (i + 1)
    else findTriggerFrom line trigger i

/-- `extractCompletionQuery`. -/
def Model.extractCompletionQuery (m : Model) (trigger : Char) : Str × Position :=
  if m.cursor.Row ≥ m.content.length then ([], m.cursor)
  else
    let line := m.lineAt m.cursor.Row
    let startPos :=
      match findTriggerFrom line trigger m.cursor.Col with
      | some i => (⟨m.cursor.Row, i⟩ : Position)
      | none => m.cursor
    if startPos.Col < line.length ∧ m.cursor.Col ≤ line.length then
      (slice line startPos.Col m.cursor.Col, startPos)
    else ([], startPos)

/-- `triggerCompletion`. -/
def Model.triggerCompletion (m : Model) (trigger : Char) : Model :=
  let qs := m.extractCompletionQuery trigger
  let query := qs.1
  let cs1 := { m.completionState with
                Active := true,
                Trigger := trigger,
                Query := query,
                Selected := 0 }
  let m1 := { m with
                completionState := cs1,
                completionStartPos := qs.2 }
  let m2 :=
    if trigger = '/' then
      { m1 with completionState := { m1.completionState with
                                      CType := CompletionType.SlashCommand,
                                      Query := stripLeading '/' query } }
    else
      { m1 with completionState := { m1.completionState with
                                      CType := CompletionType.FileFolder,
                                      Query := stripLeading '@' query } }
  m2.updateCompletionItems

/-- `updateCompletion`. -/
def Model.updateCompletion (m : Model) : Model :=
  if !m.completionState.Active then m
  else
    let qs := m.extractCompletionQuery m.completionState.Trigger
    let query := qs.1
    let m1 := { m with completionStartPos := qs.2 }
    if m1.completionState.Trigger ∉ query then
      { m1 with completionState := m1.completionState.Reset }
    else
      let m2 :=
        if m1.completionState.Trigger = '/' ∧ query.headD ' ' = '/' ∧ query ≠ [] then
          { m1 with completionState := { m1.completionState with Query := query.drop 1 } }
        else if m1.completionState.Trigger = '@' ∧ query.headD ' ' = '@' ∧ query ≠ [] then
          { m1 with completionState := { m1.completionState with Query := query.drop 1 } }
        else
          { m1 with completionState := { m1.completionState with Query := query } }
      m2.updateCompletionItems

/-- `insertCompletion`. -/
def Model.insertCompletion (m : Model) (text : Str) : Model :=
  if !m.completionState.Active then m
  else
    let startPos := m.completionStartPos
    let endPos := m.cursor
    if startPos.Row < m.content.length ∧ endPos.Row < m.content.length then
      let line := m.lineAt startPos.Row
      let newLine1 := if startPos.Col > 0 then line.take startPos.Col else []
      let newLine2 := newLine1 ++
        (if m.completionState.Trigger = '@' then '@' :: text else text)
      let newLine3 := newLine2 ++
        (if endPos.Col < line.length then line.drop endPos.Col else [])
      let insertedLength :=
        if m.completionState.Trigger = '@' then text.length + 1 else text.length
      { m with content := m.content.set startPos.Row newLine3,
               cursor := ⟨startPos.Row, startPos.Col + insertedLength⟩ }
    else m

/-- One iteration of the backwards scan loop of `checkAndTriggerCompletion`
at index `i`; `next` is the rest of the loop (or the loop exit for `i = 0`). -/
def Model.checkTriggerStep (m : Model) (line : Str) (i : Nat) (next : Model) : Model :=
  let char := line.getD i ' '
  if char = '@' then
    -- break after finding @, triggering only when unescaped and non-empty
    if i = 0 ∨ line.getD (i - 1) ' ' ≠ '\\' then
      if (slice line i m.cursor.Col).length > 0 then m.triggerCompletion '@' else m
    else m
  else if char = '/' ∧ i = 0 then
    if (slice line i m.cursor.Col).length > 0 then m.triggerCompletion '/' else m
  else if char ∈ [' ', '\t', '\n', ',', ';', '.', '!', '?'] then m
  else next

/-- The backwards scan loop of `checkAndTriggerCompletion` (from index `i`
down to 0, with the source's three break conditions). -/
def Model.checkTriggerScan (m : Model) (line : Str) : Nat → Model
  | 0 => m.checkTriggerStep line 0 m
  | i + 1 => m.checkTriggerStep line (i + 1) (m.checkTriggerScan line i)

/-- `checkAndTriggerCompletion`. -/
def Model.checkAndTriggerCompletion (m : Model) : Model :=
  if m.completionState.Active then m.updateCompletion
  else if m.cursor.Row ≥ m.content.length ∨ m.cursor.Col = 0 then m
  else
    let line := m.lineAt m.cursor.Row
    if m.cursor.Col > line.length then m
    else m.checkTriggerScan line (m.cursor.Col - 1)

/-! ## Key handlers -/

/-- The non-completion part of `handleInsertMode` plus its common
`validateCursor` tail. -/
def Model.insertNormalHandling (m : Model) (k : Key) : Model :=
  let s := keyStr k
  let m1 :=
    if s = ['e', 's', 'c'] then
      let ma := { m with completionState := m.completionState.Reset }
      let mb := { ma.endInsertSession with mode := Mode.Normal }
      Model.adjustScroll { mb with cursor := mb.moveLeft 1 }
    else if s = ['e', 'n', 't', 'e', 'r'] then m.insertNewLine
    else if s = ['b', 'a', 'c', 'k', 's', 'p', 'a', 'c', 'e'] then
      m.backspace.checkAndTriggerCompletion
    else if s = ['t', 'a', 'b'] then m.insertText ['\t']
    else if s = ['l', 'e', 'f', 't'] then
      (Model.adjustScroll { m with cursor := m.moveLeft 1 }).checkAndTriggerCompletion
    else if s = ['r', 'i', 'g', 'h', 't'] then
      (Model.adjustScroll { m with cursor := m.moveRight 1 }).checkAndTriggerCompletion
    else if s = ['u', 'p'] then
      let ma := Model.adjustScroll { m with cursor := m.moveUp 1 }
      { ma with completionState := ma.completionState.Reset }
    else if s = ['d', 'o', 'w', 'n'] then
      let ma := Model.adjustScroll { m with cursor := m.moveDown 1 }
      { ma with completionState := ma.completionState.Reset }
    else
      match keyRunes k with
      | [] => m
      | c :: rest =>
        if m.shouldTriggerCompletion c then
          (m.insertText (c :: rest)).triggerCompletion c
        else m.insertText (c :: rest)
  { m1 with cursor := m1.validateCursor m1.cursor }

/-- `handleInsertMode`.  The `tea.Cmd` emitted on slash-command selection is
host-side and dropped here. -/
def Model.handleInsertMode (m : Model) (k : Key) : Model :=
  if m.completionState.Active then
    let s := keyStr k
    if s = ['e', 's', 'c'] then { m with completionState := m.completionState.Reset }
    else if s = ['c', 't', 'r', 'l', '+', 'n'] ∨ s = ['d', 'o', 'w', 'n'] then
      { m with completionState := m.completionState.SelectNext }
    else if s = ['c', 't', 'r', 'l', '+', 'p'] ∨ s = ['u', 'p'] then
      { m with completionState := m.completionState.SelectPrev }
    else if s = ['c', 't', 'r', 'l', '+', 'y'] ∨ s = ['e', 'n', 't', 'e', 'r'] then
      match m.completionState.GetSelectedItem with
      | some selected =>
        if selected.Text.headD ' ' = '/' ∧ selected.Text ≠ [] then
          { m with content := [[]], cursor := ⟨0, 0⟩,
                   completionState := m.completionState.Reset }
        else
          let m1 := m.insertCompletion selected.Text
          { m1 with completionState := m1.completionState.Reset }
      | none => m
    else if s = ['b', 'a', 'c', 'k', 's', 'p', 'a', 'c', 'e'] then
      m.backspace.checkAndTriggerCompletion
    else if s = ['l', 'e', 'f', 't'] ∨ s = ['r', 'i', 'g', 'h', 't'] then
      -- fall through to normal handling
      m.insertNormalHandling k
    else
      if keyRunes k ≠ [] then (m.insertText (keyRunes k)).updateCompletion
      else m.insertNormalHandling k
  else m.insertNormalHandling k

/-- `handleVisualMode`.  `m.selection.End = m.cursor` dereferences the
selection pointer, which is non-nil in every reachable Visual state. -/
def Model.handleVisualMode (m : Model) (k : Key) : Model :=
  let ks := keyStr k
  let m1 :=
    if ks = ['e', 's', 'c'] then { m with mode := Mode.Normal, selection := none }
    else if ks = ['h'] ∨ ks = ['l', 'e', 'f', 't'] then
      let ma := Model.adjustScroll { m with cursor := m.moveLeft 1 }
      { ma with selection := ma.selection.map (fun (s : Selection) => { s with End := ma.cursor }) }
    else if ks = ['j'] ∨ ks = ['d', 'o', 'w', 'n'] then
      let ma := Model.adjustScroll { m with cursor := m.moveDown 1 }
      { ma with selection := ma.selection.map (fun (s : Selection) => { s with End := ma.cursor }) }
    else if ks = ['k'] ∨ ks = ['u', 'p'] then
      let ma := Model.adjustScroll { m with cursor := m.moveUp 1 }
      { ma with selection := ma.selection.map (fun (s : Selection) => { s with End := ma.cursor }) }
    else if ks = ['l'] ∨ ks = ['r', 'i', 'g', 'h', 't'] then
      let ma := Model.adjustScroll { m with cursor := m.moveRight 1 }
      { ma with selection := ma.selection.map (fun (s : Selection) => { s with End := ma.cursor }) }
    else if ks = ['d'] ∨ ks = ['x'] then
      { m.deleteSelection with mode := Mode.Normal, selection := none }
    else if ks = ['y'] then
      { m.yankSelection with mode := Mode.Normal, selection := none }
    else m
  { m1 with cursor := m1.validateCursor m1.cursor }

/-- `executeOperation` (with the inclusive-end word heuristic for delete and
change). -/
def Model.executeOperation (m : Model) (startPos endPos : Position) : Model :=
  -- ensure proper order
  let se :=
    if startPos.Row > endPos.Row ∨ (startPos.Row = endPos.Row ∧ startPos.Col > endPos.Col) then
      (endPos, startPos)
    else (startPos, endPos)
  let s := se.1
  let e := se.2
  let e1 :=
    if m.commandState.operator = ['d'] ∨ m.commandState.operator = ['c'] then
      if e.Row < m.content.length ∧ e.Col < (m.lineAt e.Row).length then
        let line := m.lineAt e.Row
        if e.Col < line.length ∧ !(isWordBoundary (line.getD e.Col ' ') false) ∧
            (e.Col + 1 ≥ line.length ∨ isWordBoundary (line.getD (e.Col + 1) ' ') false) then
          { e with Col := e.Col + 1 }
        else e
      else e
    else e
  if m.commandState.operator = ['d'] then m.deleteRange s e1
  else if m.commandState.operator = ['y'] then m.yankRange s e1
  else if m.commandState.operator = ['c'] then m.changeRange s e1
  else m

/-- `executeLineOperation`. -/
def Model.executeLineOperation (m : Model) (count : Nat) : Model :=
  let m1 :=
    if m.commandState.operator = ['d'] then m.deleteLines count
    else if m.commandState.operator = ['y'] then m.yankLines count
    else if m.commandState.operator = ['c'] then m.changeLines count
    else m
  let m2 := { m1 with commandState := ⟨[], 0, 0, false⟩ }
  { m2 with cursor := m2.validateCursor m2.cursor }

/-- The motion table of `handleMotionCommand` (its `switch` over the motion
key, returning the motion target when the key is a supported motion). -/
def Model.motionTarget (m : Model) (s : Str) (motionCount : Nat) : Option Position :=
  if s = ['h'] ∨ s = ['l', 'e', 'f', 't'] then some (m.moveLeft motionCount)
  else if s = ['l'] ∨ s = ['r', 'i', 'g', 'h', 't'] then some (m.moveRight motionCount)
  else if s = ['j'] ∨ s = ['d', 'o', 'w', 'n'] then some (m.moveDown motionCount)
  else if s = ['k'] ∨ s = ['u', 'p'] then some (m.moveUp motionCount)
  else if s = ['w'] then some (m.moveWordForward motionCount)
  else if s = ['W'] then some (m.moveWORDForward motionCount)
  else if s = ['b'] then some (m.moveWordBackward motionCount)
  else if s = ['B'] then some (m.moveWORDBackward motionCount)
  else if s = ['e'] then some (m.moveWordEnd motionCount)
  else if s = ['E'] then some (m.moveWORDEnd motionCount)
  else if s = ['0'] then some ⟨m.cursor.Row, 0⟩
  else if s = ['^'] then some m.moveToFirstNonWhitespace
  else if s = ['_'] then some m.moveToFirstNonWhitespace
  else if s = ['$'] then some m.moveToEndOfLine
  else if s = ['G'] then
    some (if motionCount = 1 then m.moveToLastLine else m.moveToLine (motionCount - 1))
  else none

/-- `handleMotionCommand` (the second key after an operator). -/
def Model.handleMotionCommand (m : Model) (k : Key) : Model :=
  let motionCount := if m.commandState.motionCount = 0 then 1 else m.commandState.motionCount
  let operatorCount := m.commandState.count
  let totalCount := operatorCount * motionCount
  let startPos := m.cursor
  -- line operations (dd, yy, cc)
  if keyStr k = m.commandState.operator then
    m.executeLineOperation totalCount
  else
    let endPos? := m.motionTarget (keyStr k) motionCount
    match endPos? with
    | none =>
      -- invalid motion: cancel the pending command silently
      { m with commandState := ⟨[], 0, 0, false⟩ }
    | some endPos =>
      let m1 := m.executeOperation startPos endPos
      let m2 := { m1 with commandState := ⟨[], 0, 0, false⟩ }
      { m2 with cursor := m2.validateCursor m2.cursor }

/-- `handleGCommand` (only `gg` is implemented; its `m.adjustScroll()` result
is discarded in the source). -/
def Model.handleGCommand (m : Model) : Model :=
  { m with cursor := ⟨0, 0⟩ }

/-- `handleFindCommand` (unimplemented placeholder). -/
def Model.handleFindCommand (m : Model) (_cmd : Str) : Model := m

/-- The common tail of `handleNormalMode`'s fall-through cases:
reset the count accumulator and revalidate the cursor. -/
def Model.normalTail (m : Model) : Model :=
  { m with inputCount := 0, cursor := m.validateCursor m.cursor }

/-- The standalone-command switch of `handleNormalMode` (cases `g`, `f/F/t/T`,
`r`, `d`, `y` and `c` return before the common tail, exactly as in the
source). -/
def Model.normalDispatch (m : Model) (k : Key) : Model :=
  let count := if m.inputCount = 0 then 1 else m.inputCount
  let s := keyStr k
  -- basic movement
  if s = ['h'] ∨ s = ['l', 'e', 'f', 't'] then
    (Model.adjustScroll { m with cursor := m.moveLeft count }).normalTail
  else if s = ['j'] ∨ s = ['d', 'o', 'w', 'n'] then
    (Model.adjustScroll { m with cursor := m.moveDown count }).normalTail
  else if s = ['k'] ∨ s = ['u', 'p'] then
    (Model.adjustScroll { m with cursor := m.moveUp count }).normalTail
  else if s = ['l'] ∨ s = ['r', 'i', 'g', 'h', 't'] then
    (Model.adjustScroll { m with cursor := m.moveRight count }).normalTail
  -- word movement
  else if s = ['w'] then
    (Model.adjustScroll { m with cursor := m.moveWordForward count }).normalTail
  else if s = ['W'] then
    (Model.adjustScroll { m with cursor := m.moveWORDForward count }).normalTail
  else if s = ['b'] then
    (Model.adjustScroll { m with cursor := m.moveWordBackward count }).normalTail
  else if s = ['B'] then
    (Model.adjustScroll { m with cursor := m.moveWORDBackward count }).normalTail
  else if s = ['e'] then
    (Model.adjustScroll { m with cursor := m.moveWordEnd count }).normalTail
  else if s = ['E'] then
    (Model.adjustScroll { m with cursor := m.moveWORDEnd count }).normalTail
  -- line movement
  else if s = ['0'] then
    (Model.adjustScroll { m with cursor := { m.cursor with Col := 0 } }).normalTail
  else if s = ['^'] then
    (Model.adjustScroll { m with cursor := m.moveToFirstNonWhitespace }).normalTail
  else if s = ['_'] then
    (Model.adjustScroll { m with cursor := m.moveToFirstNonWhitespace }).normalTail
  else if s = ['$'] then
    (Model.adjustScroll { m with cursor := m.moveToEndOfLine }).normalTail
  -- document navigation
  else if s = ['g'] then m.handleGCommand
  else if s = ['G'] then
    (Model.adjustScroll { m with cursor :=
      if count = 1 then m.moveToLastLine else m.moveToLine (count - 1) }).normalTail
  -- find/till (placeholders)
  else if s = ['f'] then m.handleFindCommand s
  else if s = ['F'] then m.handleFindCommand s
  else if s = ['t'] then m.handleFindCommand s
  else if s = ['T'] then m.handleFindCommand s
  else if s = [';'] then ({ m with cursor := m.repeatFind 1 }).normalTail
  else if s = [','] then ({ m with cursor := m.repeatFind (-1) }).normalTail
  -- insert mode entry
  else if s = ['i'] then ({ m.startInsertSession with mode := Mode.Insert }).normalTail
  else if s = ['I'] then
    ({ Model.adjustScroll { m.startInsertSession with
        cursor := m.startInsertSession.moveToFirstNonWhitespace } with
      mode := Mode.Insert }).normalTail
  else if s = ['a'] then
    ({ Model.adjustScroll { m.startInsertSession with
        cursor := m.startInsertSession.moveRight 1 } with
      mode := Mode.Insert }).normalTail
  else if s = ['A'] then
    ({ Model.adjustScroll { m.startInsertSession with
        cursor := m.startInsertSession.moveToEndOfLine } with
      mode := Mode.Insert }).normalTail
  else if s = ['o'] then
    ({ m.startInsertSession.insertNewLineBelow with mode := Mode.Insert }).normalTail
  else if s = ['O'] then
    ({ m.startInsertSession.insertNewLineAbove with mode := Mode.Insert }).normalTail
  -- visual mode
  else if s = ['v'] then
    ({ m with mode := Mode.Visual,
              selection := some ⟨m.cursor, m.cursor⟩ }).normalTail
  -- text operations
  else if s = ['x'] then (m.deleteChar count).normalTail
  else if s = ['r'] then { m with awaitingReplaceChar := true, replaceCount := count }
  else if s = ['d'] then { m with commandState := ⟨['d'], count, 0, true⟩ }
  else if s = ['D'] then m.deleteToEndOfLine.normalTail
  else if s = ['C'] then m.changeToEndOfLine.normalTail
  else if s = ['Y'] then m.yankLine.normalTail
  else if s = ['y'] then { m with commandState := ⟨['y'], count, 0, true⟩ }
  else if s = ['c'] then { m with commandState := ⟨['c'], count, 0, true⟩ }
  else if s = ['p'] then m.pasteAfter.normalTail
  else if s = ['P'] then m.pasteBefore.normalTail
  -- undo/redo
  else if s = ['u'] then m.undo.normalTail
  else if s = ['c', 't', 'r', 'l', '+', 'r'] then m.redo.normalTail
  else m.normalTail

/-- `handleNormalMode`. -/
def Model.handleNormalMode (m : Model) (k : Key) : Model :=
  -- pending single-character replace
  if m.awaitingReplaceChar then
    if (keyStr k).length = 1 then
      -- the source discards the `Model` returned by `m.replaceCharacter(...)`,
      -- but the `m.content[m.cursor.Row] = line` inside it writes through the
      -- slice backing array shared with the caller, so the replaced line is
      -- visible here; the trailing `saveUndoState` acts on the discarded copy
      -- only (slice-header and index reassignments the caller never sees)
      { m with content := (m.replaceCharacter (keyStr k) m.replaceCount).content,
               awaitingReplaceChar := false, replaceCount := 0 }
    else m
  -- a digit 1-9 with no count accumulated and no motion pending starts a count
  else if (keyStr k).length = 1 ∧ '1' ≤ firstChar (keyStr k) ∧ firstChar (keyStr k) ≤ '9'
      ∧ m.inputCount = 0 ∧ m.commandState.awaitingMotion = false then
    { m with inputCount := digitVal (firstChar (keyStr k)) }
  -- a digit while a count is accumulating appends to the active counter
  else if (keyStr k).length = 1 ∧ '0' ≤ firstChar (keyStr k) ∧ firstChar (keyStr k) ≤ '9'
      ∧ (m.inputCount > 0 ∨ m.commandState.awaitingMotion = true) then
    if m.commandState.awaitingMotion then
      { m with commandState := { m.commandState with
          motionCount := m.commandState.motionCount * 10 + digitVal (firstChar (keyStr k)) } }
    else
      { m with inputCount := m.inputCount * 10 + digitVal (firstChar (keyStr k)) }
  -- pending operator: route to motion resolution
  else if m.commandState.awaitingMotion then
    m.handleMotionCommand k
  else
    m.normalDispatch k

/-- `handleKeyMsg` (`Update` on a key message): one step of the engine. -/
def Model.step (m : Model) (k : Key) : Model :=
  match m.mode with
  | Mode.Normal => m.handleNormalMode k
  | Mode.Insert => m.handleInsertMode k
  | Mode.Visual => m.handleVisualMode k

/-- `New`: the freshly constructed engine (fields the constructor does not
mention take Go zero values) followed by the initial `saveUndoState`. -/
def New : Model :=
  Model.saveUndoState
    { mode := Mode.Insert
      content := [[]]
      cursor := ⟨0, 0⟩
      selection := none
      clipboard := []
      width := 80
      height := 1
      placeholder := []
      focused := true
      scrollOffset := 0
      lastFindChar := Char.ofNat 0
      lastFindDir := 0
      lastFindType := 0
      commandState := ⟨[], 0, 0, false⟩
      inputCount := 0
      awaitingReplaceChar := false
      replaceCount := 0
      inInsertSession := false
      undoHistory := ⟨[], -1, 100⟩
      completionState := ⟨false, Char.ofNat 0, [], [], 0, CompletionType.SlashCommand⟩
      completionStartPos := ⟨0, 0⟩ }

/-- Engine states reachable by processing key events from construction. -/
inductive Reachable : Model → Prop where
  | init : Reachable New
  | step {m : Model} (h : Reachable m) (k : Key) : Reachable (m.step k)

/-- `n`-fold `undo` (pressing `u` `n` times acts through this). -/
def undoN (n : Nat) (m : Model) : Model := Model.undo^[n] m

/-- `n`-fold `redo`. -/
def redoN (n : Nat) (m : Model) : Model := Model.redo^[n] m

/-! ## Concrete fixtures for the claims -/

/-- A freshly constructed engine put into Normal mode on a given buffer, as
`Esc` after construction does (all other fields as built by `New`). -/
def normalModel (lines : List Str) (pos : Position) : Model :=
  { New with mode := Mode.Normal, content := lines, cursor := pos }

/-- Feed a list of key events through the engine. -/
def feedKeys (m : Model) (ks : List Key) : Model := ks.foldl Model.step m

/-- Buffer of seven two-letter words, for the count-multiplication claim. -/
def c1Start : Model := normalModel ["aa bb cc dd ee ff gg".toList] ⟨0, 0⟩

/-- Visual-mode state selecting `ab` of `abc`, clipboard pre-loaded. -/
def c4Visual : Model :=
  { normalModel ["abc".toList] ⟨0, 0⟩ with
      mode := Mode.Visual,
      selection := some ⟨⟨0, 0⟩, ⟨0, 2⟩⟩,
      clipboard := "xyz".toList }

/-- Normal-mode `hello` buffer at the origin. -/
def c5Model : Model := normalModel ["hello".toList] ⟨0, 0⟩

/-- Normal-mode `hello` buffer with the cursor on column 3. -/
def c6Start : Model := normalModel ["hello".toList] ⟨0, 3⟩

/-- Normal-mode `ab` buffer at the origin. -/
def c7Base : Model := normalModel ["ab".toList] ⟨0, 0⟩

/-- `c7Base` with a single-character replace pending. -/
def c7Pending : Model := { c7Base with awaitingReplaceChar := true, replaceCount := 1 }

/-- Key sequence for the undo/redo round-trip counterexample: one insert
session typing `abc` and moving the cursor left twice before `Esc`. -/
def c2Keys : List Key :=
  [Key.esc, Key.chars ['i'], Key.chars ['a'], Key.chars ['b'], Key.chars ['c'],
   Key.left, Key.left, Key.esc]

/-- A Normal-mode model sitting on its latest checkpoint (two snapshots,
index 1, snapshot cursor different from the live cursor). -/
def c2Checkpointed : Model :=
  { normalModel ["ab".toList] ⟨0, 0⟩ with
      undoHistory := ⟨[⟨[[]], ⟨0, 0⟩⟩, ⟨["ab".toList], ⟨0, 2⟩⟩], 1, 100⟩ }

/-! ## Helper lemmas -/

/-! ## Invariant definitions for the reachable-state analysis -/

/-- Cursor bounds: inside the buffer, within the line, strictly within it in
Normal mode on a non-empty line. -/
def CursorOK (m : Model) : Prop :=
  m.cursor.Row < m.content.length
  ∧ m.cursor.Col ≤ (m.lineAt m.cursor.Row).length
  ∧ (m.mode = Mode.Normal → m.lineAt m.cursor.Row ≠ [] →
      m.cursor.Col < (m.lineAt m.cursor.Row).length)

/-- Selection discipline: a selection exists exactly in Visual mode and its
endpoints are on buffer rows. -/
def SelOK (m : Model) : Prop :=
  (m.selection = none → m.mode ≠ Mode.Visual)
  ∧ (∀ s, m.selection = some s → m.mode = Mode.Visual
      ∧ s.Start.Row < m.content.length ∧ s.End.Row < m.content.length)

/-- Every stored snapshot is a non-empty line array. -/
def HistOK (m : Model) : Prop :=
  ∀ st ∈ m.undoHistory.states, st.content ≠ []

/-- With a nil completion engine the item list is always empty. -/
def ItemsOK (m : Model) : Prop :=
  m.completionState.Items = []

/-- The undo index stays within `[-1, len)`. -/
def HistIdxOK (m : Model) : Prop :=
  -1 ≤ m.undoHistory.index ∧ m.undoHistory.index < (m.undoHistory.states.length : Int)

/-- A pending operator always carries a positive count (`d`/`y`/`c` store
`max 1 inputCount`). -/
def CmdOK (m : Model) : Prop :=
  m.commandState.awaitingMotion = true → 1 ≤ m.commandState.count

/-- The inductive invariant of the engine. -/
def Inv (m : Model) : Prop :=
  m.content ≠ [] ∧ CursorOK m ∧ SelOK m ∧ HistOK m ∧ HistIdxOK m ∧ ItemsOK m ∧ CmdOK m

/-- Fields of the model the invariant reads, other than `completionState`. -/
def SameCore (a b : Model) : Prop :=
  b.content = a.content ∧ b.cursor = a.cursor ∧ b.selection = a.selection
  ∧ b.mode = a.mode ∧ b.undoHistory = a.undoHistory ∧ b.commandState = a.commandState

/-- Everything `Inv` needs except the cursor bounds; the revalidating tails
turn this into the full invariant. -/
def PreInv (m : Model) : Prop :=
  m.content ≠ [] ∧ SelOK m ∧ HistOK m ∧ HistIdxOK m ∧ ItemsOK m ∧ CmdOK m

/-- `prevWord` keeps the row of its argument. -/
lemma prevWord_row (m : Model) (pos : Position) (b : Bool) :
    (m.prevWord pos b).Row = pos.Row := rfl

/-- Row preservation lifts through the repeat-count loop. -/
lemma iterPos_row (f : Position → Position) (hf : ∀ p, (f p).Row = p.Row) :
    ∀ (n : Nat) (p : Position), (iterPos f n p).Row = p.Row
  | 0, _ => rfl
  | n + 1, p => by rw [iterPos, iterPos_row f hf n (f p), hf p]

/-- `startInsertSession` always ends with the flag set (the conditional of
the source only avoids a redundant write). -/
lemma startInsertSession_eq (m : Model) :
    m.startInsertSession = { m with inInsertSession := true } := by
  unfold Model.startInsertSession
  by_cases h : m.inInsertSession
  · simp only [h, Bool.not_true, Bool.false_eq_true, if_false]
    cases m
    simp_all
  · simp [h]

/-- `adjustScroll` touches only the scroll offset: the buffer is unchanged. -/
lemma adjustScroll_content (m : Model) : m.adjustScroll.content = m.content := by
  unfold Model.adjustScroll
  split_ifs <;> rfl

/-- `adjustScroll` leaves the cursor unchanged. -/
lemma adjustScroll_cursor (m : Model) : m.adjustScroll.cursor = m.cursor := by
  unfold Model.adjustScroll
  split_ifs <;> rfl

/-- `adjustScroll` leaves the undo history unchanged. -/
lemma adjustScroll_undoHistory (m : Model) : m.adjustScroll.undoHistory = m.undoHistory := by
  unfold Model.adjustScroll
  split_ifs <;> rfl

/-- `undo` is a no-op at (or below) the bottom of the history. -/
lemma undo_nonpos (m : Model) (h : m.undoHistory.index ≤ 0) : m.undo = m := by
  unfold Model.undo
  rw [if_pos h]

/-- `undo` above the bottom: decrement the index and restore that snapshot. -/
lemma undo_pos (m : Model) (h : ¬ m.undoHistory.index ≤ 0) :
    m.undo.undoHistory.states = m.undoHistory.states
    ∧ m.undo.undoHistory.index = m.undoHistory.index - 1
    ∧ m.undo.content = (m.undoHistory.states.getD (m.undoHistory.index - 1).toNat
        ⟨[], ⟨0, 0⟩⟩).content
    ∧ m.undo.cursor = (m.undoHistory.states.getD (m.undoHistory.index - 1).toNat
        ⟨[], ⟨0, 0⟩⟩).cursor := by
  unfold Model.undo
  rw [if_neg h]
  refine ⟨?_, ?_, ?_, ?_⟩ <;>
    simp [adjustScroll_content, adjustScroll_cursor, adjustScroll_undoHistory]

/-- `redo` is a no-op at the top of the history. -/
lemma redo_top (m : Model)
    (h : m.undoHistory.index ≥ (m.undoHistory.states.length : Int) - 1) : m.redo = m := by
  unfold Model.redo
  rw [if_pos h]

/-- `redo` below the top: increment the index and restore that snapshot. -/
lemma redo_mid (m : Model)
    (h : ¬ m.undoHistory.index ≥ (m.undoHistory.states.length : Int) - 1) :
    m.redo.undoHistory.states = m.undoHistory.states
    ∧ m.redo.undoHistory.index = m.undoHistory.index + 1
    ∧ m.redo.content = (m.undoHistory.states.getD (m.undoHistory.index + 1).toNat
        ⟨[], ⟨0, 0⟩⟩).content
    ∧ m.redo.cursor = (m.undoHistory.states.getD (m.undoHistory.index + 1).toNat
        ⟨[], ⟨0, 0⟩⟩).cursor := by
  unfold Model.redo
  rw [if_neg h]
  refine ⟨?_, ?_, ?_, ?_⟩ <;>
    simp [adjustScroll_content, adjustScroll_cursor, adjustScroll_undoHistory]

/-- `t` undos from a synced in-bounds state: the index drops to
`max (index - t) 0` and the buffer reads that snapshot. -/
lemma undoN_spec : ∀ (t : Nat) (m : Model),
    0 ≤ m.undoHistory.index →
    m.content = (m.undoHistory.states.getD m.undoHistory.index.toNat ⟨[], ⟨0, 0⟩⟩).content →
    (undoN t m).undoHistory.states = m.undoHistory.states
    ∧ (undoN t m).undoHistory.index = max (m.undoHistory.index - (t : Int)) 0
    ∧ (undoN t m).content = (m.undoHistory.states.getD
        (max (m.undoHistory.index - (t : Int)) 0).toNat ⟨[], ⟨0, 0⟩⟩).content
  | 0, m, hpos, hsync => by
    rw [show undoN 0 m = m from rfl]
    have hmax : max (m.undoHistory.index - ((0 : Nat) : Int)) 0 = m.undoHistory.index := by
      omega
    rw [hmax]
    exact ⟨rfl, rfl, hsync⟩
  | t + 1, m, hpos, hsync => by
    rw [show undoN (t + 1) m = undoN t m.undo from Function.iterate_succ_apply _ _ _]
    by_cases h : m.undoHistory.index ≤ 0
    · rw [undo_nonpos m h]
      obtain ⟨a, b, c⟩ := undoN_spec t m hpos hsync
      have hmax : max (m.undoHistory.index - ((t : Nat) : Int)) 0
          = max (m.undoHistory.index - (((t + 1 : Nat)) : Int)) 0 := by
        omega
      rw [hmax] at b c
      exact ⟨a, b, c⟩
    · obtain ⟨hS, hI, hC, _⟩ := undo_pos m h
      obtain ⟨a, b, c⟩ := undoN_spec t m.undo
        (by rw [hI]; omega) (by rw [hC, hS, hI])
      rw [hS] at a c
      rw [hI] at b c
      have hmax : max (m.undoHistory.index - 1 - ((t : Nat) : Int)) 0
          = max (m.undoHistory.index - (((t + 1 : Nat)) : Int)) 0 := by
        omega
      rw [hmax] at b c
      exact ⟨a, b, c⟩

/-- Redoing from the top of the history is the identity. -/
lemma redoN_top (r : Nat) (m : Model)
    (h : m.undoHistory.index ≥ (m.undoHistory.states.length : Int) - 1) :
    redoN r m = m := by
  induction r with
  | zero => rfl
  | succ r ih =>
    rw [show redoN (r + 1) m = redoN r m.redo from Function.iterate_succ_apply _ _ _]
    rw [redo_top m h]
    exact ih

/-- `r` redos from a synced in-bounds state: the index climbs to
`min (index + r) (len - 1)` and the buffer reads that snapshot; if at least
one redo fires, the cursor is that snapshot's cursor. -/
lemma redoN_spec : ∀ (r : Nat) (m : Model),
    0 ≤ m.undoHistory.index →
    m.undoHistory.index ≤ (m.undoHistory.states.length : Int) - 1 →
    m.content = (m.undoHistory.states.getD m.undoHistory.index.toNat ⟨[], ⟨0, 0⟩⟩).content →
    (redoN r m).undoHistory.states = m.undoHistory.states
    ∧ (redoN r m).undoHistory.index
        = min (m.undoHistory.index + (r : Int)) ((m.undoHistory.states.length : Int) - 1)
    ∧ (redoN r m).content = (m.undoHistory.states.getD
        (min (m.undoHistory.index + (r : Int)) ((m.undoHistory.states.length : Int) - 1)).toNat
        ⟨[], ⟨0, 0⟩⟩).content
    ∧ (1 ≤ r → m.undoHistory.index < (m.undoHistory.states.length : Int) - 1 →
        (redoN r m).cursor = (m.undoHistory.states.getD
          (min (m.undoHistory.index + (r : Int))
            ((m.undoHistory.states.length : Int) - 1)).toNat ⟨[], ⟨0, 0⟩⟩).cursor)
  | 0, m, hpos, hle, hsync => by
    rw [show redoN 0 m = m from rfl]
    have hmin : min (m.undoHistory.index + ((0 : Nat) : Int))
        ((m.undoHistory.states.length : Int) - 1) = m.undoHistory.index := by
      omega
    rw [hmin]
    exact ⟨rfl, rfl, hsync, by omega⟩
  | r + 1, m, hpos, hle, hsync => by
    rw [show redoN (r + 1) m = redoN r m.redo from Function.iterate_succ_apply _ _ _]
    by_cases h : m.undoHistory.index ≥ (m.undoHistory.states.length : Int) - 1
    · rw [redo_top m h]
      obtain ⟨a, b, c, _⟩ := redoN_spec r m hpos hle hsync
      have hmin : min (m.undoHistory.index + ((r : Nat) : Int))
            ((m.undoHistory.states.length : Int) - 1)
          = min (m.undoHistory.index + (((r + 1 : Nat)) : Int))
            ((m.undoHistory.states.length : Int) - 1) := by
        omega
      rw [hmin] at b c
      exact ⟨a, b, c, by omega⟩
    · obtain ⟨hS, hI, hC, hCur⟩ := redo_mid m h
      obtain ⟨a, b, c, d⟩ := redoN_spec r m.redo
        (by rw [hI]; omega) (by rw [hI, hS]; omega) (by rw [hC, hS, hI])
      rw [hS] at a b c d
      rw [hI] at b c d
      have hmin : min (m.undoHistory.index + 1 + ((r : Nat) : Int))
            ((m.undoHistory.states.length : Int) - 1)
          = min (m.undoHistory.index + (((r + 1 : Nat)) : Int))
            ((m.undoHistory.states.length : Int) - 1) := by
        omega
      rw [hmin] at b c d
      refine ⟨a, b, c, fun _ hlt => ?_⟩
      by_cases hmid : m.undoHistory.index + 1 < (m.undoHistory.states.length : Int) - 1
      · by_cases hr : 1 ≤ r
        · exact d hr hmid
        · have hr0 : r = 0 := by omega
          subst hr0
          rw [show redoN 0 m.redo = m.redo from rfl, hCur]
          have heq : (m.undoHistory.index + 1).toNat
              = (min (m.undoHistory.index + (((0 + 1 : Nat)) : Int))
                  ((m.undoHistory.states.length : Int) - 1)).toNat := by
            omega
          rw [heq]
      · have htop : m.redo.undoHistory.index
            ≥ (m.redo.undoHistory.states.length : Int) - 1 := by
          rw [hI, hS]; omega
        rw [redoN_top r m.redo htop, hCur]
        have heq : (m.undoHistory.index + 1).toNat
            = (min (m.undoHistory.index + (((r + 1 : Nat)) : Int))
                ((m.undoHistory.states.length : Int) - 1)).toNat := by
          omega
        rw [heq]

/-! ## Claim theorems -/

/-- C10: word-backward motions (`b` and `B`) never change the cursor row:
for every buffer, cursor position and repeat count, `moveWordBackward` and
`moveWORDBackward` return a position on the starting row. -/
theorem word_backward_preserves_row (m : Model) (count : Nat) :
    (m.moveWordBackward count).Row = m.cursor.Row ∧
    (m.moveWORDBackward count).Row = m.cursor.Row :=
  ⟨iterPos_row _ (fun p => prevWord_row m p false) count m.cursor,
   iterPos_row _ (fun p => prevWord_row m p true) count m.cursor⟩

/-- C1: evaluation at the failing input `2d3w`.  The engine resolves the
motion with the motion count alone (3 word motions, leaving `dd ee ff gg`),
although `moveWordForward` applied `2*3 = 6` times from the same start
reaches column 18, so the claimed span would leave only `gg`.  The computed
`totalCount` is used only by the line-wise path. -/
theorem count_multiplication_code_eval :
    (feedKeys c1Start
        [Key.chars ['2'], Key.chars ['d'], Key.chars ['3'], Key.chars ['w']]).content
      = ["dd ee ff gg".toList]
    ∧ c1Start.moveWordForward 6 = ⟨0, 18⟩
    ∧ (c1Start.deleteRange ⟨0, 0⟩ (c1Start.moveWordForward 6)).content = ["gg".toList] := by
  decide

/-- C4: evaluation at the failing input.  A visual-mode delete of the
single-line selection `ab` mutates the buffer but leaves the clipboard
untouched (`xyz`), while yanking the identical selection writes `ab`. -/
theorem visual_delete_clipboard_eval :
    (c4Visual.step (Key.chars ['d'])).content = ["c".toList]
    ∧ (c4Visual.step (Key.chars ['d'])).clipboard = "xyz".toList
    ∧ (c4Visual.step (Key.chars ['y'])).clipboard = "ab".toList
    ∧ (c4Visual.step (Key.chars ['y'])).content = ["abc".toList] := by
  decide

/-- C5 counterexample: a change operation does record an undo checkpoint at
the moment its deletion is performed — `changeRange` grows the history from
one state to two while the insert session is still open. -/
theorem change_checkpoint_counterexample :
    c5Model.undoHistory.states.length = 1
    ∧ (c5Model.changeRange ⟨0, 0⟩ ⟨0, 3⟩).undoHistory.states.length = 2
    ∧ (c5Model.changeRange ⟨0, 0⟩ ⟨0, 3⟩).inInsertSession = true
    ∧ (c5Model.changeRange ⟨0, 0⟩ ⟨0, 3⟩).mode = Mode.Insert := by
  decide

/-- C5 (amended): a change is exactly the corresponding delete — including
the undo checkpoint the delete records at deletion time — followed by
entering Insert mode with an open insert session (whose end will record a
second, deduplicating checkpoint). -/
theorem changeRange_is_deleteRange_then_insert (m : Model) (s e : Position) :
    m.changeRange s e
      = { m.deleteRange s e with mode := Mode.Insert, inInsertSession := true } := by
  unfold Model.changeRange
  rw [startInsertSession_eq]

/-- C6: evaluation at the failing input `d0` on `hello` with the cursor at
column 3.  The `0` is consumed by the count-accumulation branch (the command
is still awaiting its motion and the buffer is unchanged), although the
motion-resolution path for `0` — which the claim describes and which is
unreachable behind the count branch — would delete `hel`. -/
theorem zero_after_operator_eval :
    (feedKeys c6Start [Key.chars ['d'], Key.chars ['0']]).content = ["hello".toList]
    ∧ (feedKeys c6Start [Key.chars ['d'], Key.chars ['0']]).commandState.awaitingMotion = true
    ∧ (feedKeys c6Start [Key.chars ['d'], Key.chars ['0']]).commandState.motionCount = 0
    ∧ ((c6Start.step (Key.chars ['d'])).handleMotionCommand (Key.chars ['0'])).content
        = ["lo".toList]
    ∧ ((c6Start.step (Key.chars ['d'])).handleMotionCommand (Key.chars ['0'])).clipboard
        = "hel".toList := by
  decide

/-- C7 counterexample: after `r` the Escape key leaves the pending-replace
flag set, so the following `x` is consumed as a replacement character instead
of being dispatched as the delete command — the buffer becomes `xb` (the
replacement persists through the shared slice backing array even though the
returned `Model` is discarded), while dispatching `x` as an ordinary command
would leave `b`. -/
theorem replace_pending_counterexample :
    (feedKeys c7Base [Key.chars ['r'], Key.esc]).awaitingReplaceChar = true
    ∧ (feedKeys c7Base [Key.chars ['r'], Key.esc, Key.chars ['x']]).content = ["xb".toList]
    ∧ (feedKeys c7Base [Key.chars ['r'], Key.esc, Key.chars ['x']]).awaitingReplaceChar = false
    ∧ (c7Base.step (Key.chars ['x'])).content = ["b".toList] := by
  decide

/-- C7 (amended): while a replace is pending, a non-single-character key is a
complete no-op — the buffer is unchanged and the pending state stays set —
and the next single-character key is then consumed as the replacement rather
than dispatched as a command: the line rewritten by `replaceCharacter`
persists (the slice element write is shared with the caller), the pending
state is cleared, and the undo checkpoint is lost with the discarded copy. -/
theorem replace_pending_nonchar_noop (m : Model) (k : Key)
    (h1 : m.mode = Mode.Normal) (h2 : m.awaitingReplaceChar = true)
    (h3 : (keyStr k).length ≠ 1) :
    m.step k = m
    ∧ ∀ c : Char, (m.step k).step (Key.chars [c])
        = { m with content := (m.replaceCharacter [c] m.replaceCount).content,
                   awaitingReplaceChar := false, replaceCount := 0 } := by
  have hstep : m.step k = m := by
    simp [Model.step, h1, Model.handleNormalMode, h2, h3]
  refine ⟨hstep, fun c => ?_⟩
  rw [hstep]
  simp [Model.step, h1, Model.handleNormalMode, h2, keyStr]

/-- C7 witness: the amended statement at `c7Pending` and the Escape key. -/
theorem replace_pending_nonchar_noop_witness :
    c7Pending.step Key.esc = c7Pending
    ∧ ∀ c : Char, (c7Pending.step Key.esc).step (Key.chars [c])
        = { c7Pending with
              content := (c7Pending.replaceCharacter [c] c7Pending.replaceCount).content,
              awaitingReplaceChar := false, replaceCount := 0 } :=
  replace_pending_nonchar_noop c7Pending Key.esc rfl rfl (by decide)

/-- C9: evaluation at the failing input.  From the freshly constructed
engine (viewport height 1), Enter splits the single line: the buffer now has
2 lines and the cursor sits on row 1, but the scroll offset stays 0 because
`insertNewLine` discards the result of its `adjustScroll` call — violating
`offset ≤ cursor.row ≤ offset + height − 1` for a buffer taller than the
viewport. -/
theorem scroll_invariant_eval :
    (New.step Key.enter).content.length = 2
    ∧ (New.step Key.enter).height = 1
    ∧ (New.step Key.enter).scrollOffset = 0
    ∧ (New.step Key.enter).cursor.Row = 1
    ∧ ¬((New.step Key.enter).cursor.Row
        ≤ (New.step Key.enter).scrollOffset + (New.step Key.enter).height - 1) := by
  decide

/-- Indexing past a dropped head shifts by one. -/
lemma getD_drop_one {α : Type} (l : List α) (n : Nat) (d : α) :
    (l.drop 1).getD n d = l.getD (n + 1) d := by
  cases l with
  | nil => simp
  | cons a t => rfl

/-- C3 (amended): immediately after every `saveUndoState` call on a history
whose index is in bounds (and with a positive capacity, as configured), the
index is non-negative and the snapshot at the index has lines equal to the
live buffer.  Between checkpoints the buffer may diverge (see the
counterexample). -/
theorem saveUndoState_syncs_snapshot (m : Model)
    (h1 : -1 ≤ m.undoHistory.index)
    (h2 : m.undoHistory.index < (m.undoHistory.states.length : Int))
    (h3 : 1 ≤ m.undoHistory.maxSize) :
    0 ≤ m.saveUndoState.undoHistory.index
    ∧ (m.saveUndoState.undoHistory.states.getD m.saveUndoState.undoHistory.index.toNat
        ⟨[], ⟨0, 0⟩⟩).content = m.content := by
  unfold Model.saveUndoState
  by_cases hd : 0 ≤ m.undoHistory.index
      ∧ m.undoHistory.index < (m.undoHistory.states.length : Int)
      ∧ (m.undoHistory.states.getD m.undoHistory.index.toNat ⟨[], ⟨0, 0⟩⟩).content = m.content
  · simp only [hd, if_true]
    exact ⟨hd.1, hd.2.2⟩
  · simp only [hd, if_false]
    set i := m.undoHistory.index with hi
    set S := m.undoHistory.states with hS
    have hlen1 : (if i < (S.length : Int) - 1 then S.take (i + 1).toNat else S).length
        = (i + 1).toNat := by
      split_ifs with ht
      · rw [List.length_take]
        omega
      · omega
    set S1 := if i < (S.length : Int) - 1 then S.take (i + 1).toNat else S with hS1
    by_cases he : (S1 ++ [(⟨m.content, m.cursor⟩ : UndoState)]).length > m.undoHistory.maxSize
    · simp only [he, if_true]
      simp only [List.length_append, List.length_cons, List.length_nil] at he
      constructor
      · omega
      · rw [getD_drop_one]
        rw [List.getD_append_right]
        · have hz : (i + 1 - 1).toNat + 1 - S1.length = 0 := by omega
          rw [hz]
          rfl
        · omega
    · simp only [he, if_false]
      constructor
      · omega
      · rw [List.getD_append_right]
        · have hz : (i + 1).toNat - S1.length = 0 := by omega
          rw [hz]
          rfl
        · omega

/-- C3 witness: the amended statement at a concrete Normal-mode model whose
buffer differs from its only snapshot. -/
theorem saveUndoState_syncs_snapshot_witness :
    0 ≤ (normalModel ["x".toList] ⟨0, 0⟩).saveUndoState.undoHistory.index
    ∧ ((normalModel ["x".toList] ⟨0, 0⟩).saveUndoState.undoHistory.states.getD
        (normalModel ["x".toList] ⟨0, 0⟩).saveUndoState.undoHistory.index.toNat
        ⟨[], ⟨0, 0⟩⟩).content = (normalModel ["x".toList] ⟨0, 0⟩).content :=
  saveUndoState_syncs_snapshot (normalModel ["x".toList] ⟨0, 0⟩)
    (by decide) (by decide) (by decide)

/-- C2 counterexample: from a fresh engine, the single edit `i a b c ← ← Esc`
ends with buffer `abc` and cursor (0,0), but one undo followed by one redo
ends with cursor (0,1) — the cursor stored in the checkpoint (taken before
the Esc cursor shift), not the cursor that held after the edit. -/
theorem undo_redo_roundtrip_counterexample :
    (feedKeys New c2Keys).content = ["abc".toList]
    ∧ (feedKeys New c2Keys).cursor = ⟨0, 0⟩
    ∧ (feedKeys New (c2Keys ++ [Key.chars ['u'], Key.ctrlR])).content = ["abc".toList]
    ∧ (feedKeys New (c2Keys ++ [Key.chars ['u'], Key.ctrlR])).cursor = ⟨0, 1⟩ := by
  decide

/-- C2 (amended): from any state sitting on its latest checkpoint (index at
the top and snapshot lines equal to the buffer, which holds after every
checkpointing edit), `k` undos followed by `k` redos restore the buffer
lines exactly, for every `k`; when at least one undo/redo pair fires, the
cursor is restored to the checkpoint's recorded cursor, which need not be
the live cursor that held after the edit. -/
theorem undo_redo_restores_checkpoint (m : Model) (k : Nat)
    (hlen : m.undoHistory.index = (m.undoHistory.states.length : Int) - 1)
    (hpos : 0 ≤ m.undoHistory.index)
    (hsync : (m.undoHistory.states.getD m.undoHistory.index.toNat ⟨[], ⟨0, 0⟩⟩).content
        = m.content) :
    (redoN k (undoN k m)).content = m.content
    ∧ (1 ≤ k → 1 ≤ m.undoHistory.index →
        (redoN k (undoN k m)).cursor
          = (m.undoHistory.states.getD m.undoHistory.index.toNat ⟨[], ⟨0, 0⟩⟩).cursor) := by
  obtain ⟨ua, ub, uc⟩ := undoN_spec k m hpos hsync.symm
  obtain ⟨ra, rb, rc, rd⟩ := redoN_spec k (undoN k m)
    (by rw [ub]; omega) (by rw [ub, ua]; omega) (by rw [uc, ua, ub])
  rw [ua] at rc rd
  rw [ub] at rc rd
  constructor
  · rw [rc]
    have hidx : (min (max (m.undoHistory.index - (k : Int)) 0 + (k : Int))
        ((m.undoHistory.states.length : Int) - 1)).toNat = m.undoHistory.index.toNat := by
      omega
    rw [hidx, hsync]
  · intro hk hi
    rw [rd hk (by omega)]
    have hidx : (min (max (m.undoHistory.index - (k : Int)) 0 + (k : Int))
        ((m.undoHistory.states.length : Int) - 1)).toNat = m.undoHistory.index.toNat := by
      omega
    rw [hidx]

/-- C2 witness: the amended statement at `c2Checkpointed` with one
undo/redo pair. -/
theorem undo_redo_restores_checkpoint_witness :
    (redoN 1 (undoN 1 c2Checkpointed)).content = c2Checkpointed.content
    ∧ (1 ≤ 1 → 1 ≤ c2Checkpointed.undoHistory.index →
        (redoN 1 (undoN 1 c2Checkpointed)).cursor
          = (c2Checkpointed.undoHistory.states.getD c2Checkpointed.undoHistory.index.toNat
              ⟨[], ⟨0, 0⟩⟩).cursor) :=
  undo_redo_restores_checkpoint c2Checkpointed 1 (by decide) (by decide) (by decide)

/-- C3 counterexample: fresh engines start in Insert mode, and the first
typed character leaves the undo index at 0 pointing at the initial empty
snapshot while the live buffer already reads `a` — the claimed sync between
`states[index]` and the buffer does not hold at every return. -/
theorem undo_sync_counterexample :
    (New.step (Key.chars ['a'])).undoHistory.index = 0
    ∧ ((New.step (Key.chars ['a'])).undoHistory.states.getD 0 ⟨[], ⟨0, 0⟩⟩).content = [[]]
    ∧ (New.step (Key.chars ['a'])).content = ["a".toList]
    ∧ ([[]] : List Str) ≠ ["a".toList] := by
  decide

end Vim

namespace Vim

lemma cursorOK_of {a b : Model} (hc : b.content = a.content) (hp : b.cursor = a.cursor)
    (hm : b.mode = a.mode) (h : CursorOK a) : CursorOK b := by
  unfold CursorOK Model.lineAt at *
  rw [hc, hp, hm]
  exact h

lemma selOK_of {a b : Model} (hs : b.selection = a.selection) (hm : b.mode = a.mode)
    (hl : b.content.length = a.content.length) (h : SelOK a) : SelOK b := by
  unfold SelOK at *
  rw [hs, hm, hl]
  exact h

lemma selOK_none {b : Model} (hs : b.selection = none) (hm : b.mode ≠ Mode.Visual) :
    SelOK b :=
  ⟨fun _ => hm, fun s hsome => by rw [hs] at hsome; cases hsome⟩

lemma selOK_normal_none {m : Model} (h : SelOK m) (hm : m.mode ≠ Mode.Visual) :
    m.selection = none := by
  cases hsel : m.selection with
  | none => rfl
  | some s => exact absurd (h.2 s hsel).1 hm

lemma histOK_of {a b : Model} (hst : b.undoHistory.states = a.undoHistory.states)
    (h : HistOK a) : HistOK b := by
  unfold HistOK at *
  rw [hst]
  exact h

lemma itemsOK_of {a b : Model} (hit : b.completionState.Items = a.completionState.Items)
    (h : ItemsOK a) : ItemsOK b := by
  unfold ItemsOK at *
  rw [hit]
  exact h

/-- `validateCursor` on a non-empty buffer, written out. -/
lemma validateCursor_eq (m : Model) (pos : Position) (h : m.content.length ≠ 0) :
    m.validateCursor pos
      = ⟨min pos.Row (m.content.length - 1),
         min pos.Col
           (if m.mode = Mode.Normal ∧ (m.lineAt (min pos.Row (m.content.length - 1))).length > 0
            then (m.lineAt (min pos.Row (m.content.length - 1))).length - 1
            else (m.lineAt (min pos.Row (m.content.length - 1))).length)⟩ := by
  unfold Model.validateCursor
  rw [if_neg h]

/-- `validateCursor` establishes the cursor bounds on a non-empty buffer. -/
lemma validateCursor_ok (m : Model) (pos : Position) (h : m.content ≠ []) :
    (m.validateCursor pos).Row < m.content.length
    ∧ (m.validateCursor pos).Col ≤ (m.lineAt (m.validateCursor pos).Row).length
    ∧ (m.mode = Mode.Normal → m.lineAt (m.validateCursor pos).Row ≠ [] →
        (m.validateCursor pos).Col < (m.lineAt (m.validateCursor pos).Row).length) := by
  have hlen : m.content.length ≠ 0 := by
    simpa [List.length_eq_zero] using h
  rw [validateCursor_eq m pos hlen]
  refine ⟨by simp only []; omega, ?_, ?_⟩
  · simp only []
    split_ifs with hc
    · omega
    · omega
  · simp only []
    intro hm hne
    have hpos : 0 < (m.lineAt (min pos.Row (m.content.length - 1))).length := by
      cases hl : m.lineAt (min pos.Row (m.content.length - 1)) with
      | nil => exact absurd hl hne
      | cons a t => simp [hl]
    split_ifs with hc
    · omega
    · exact absurd ⟨hm, hpos⟩ hc

end Vim

namespace Vim

/-- Revalidating the cursor restores the full invariant on a non-empty
buffer whose other components are sound. -/
lemma inv_revalidate (m : Model) (hc : m.content ≠ []) (hs : SelOK m) (hh : HistOK m)
    (hx : HistIdxOK m) (hi : ItemsOK m) (hq : CmdOK m) :
    Inv { m with cursor := m.validateCursor m.cursor } := by
  obtain ⟨r1, r2, r3⟩ := validateCursor_ok m m.cursor hc
  exact ⟨hc, ⟨r1, r2, r3⟩, selOK_of rfl rfl rfl hs, histOK_of rfl hh, hx, itemsOK_of rfl hi, hq⟩

/-- Same, through the Normal-mode command tail (which also clears the count
accumulator). -/
lemma inv_normalTail (m : Model) (hc : m.content ≠ []) (hs : SelOK m) (hh : HistOK m)
    (hx : HistIdxOK m) (hi : ItemsOK m) (hq : CmdOK m) : Inv m.normalTail := by
  obtain ⟨r1, r2, r3⟩ := validateCursor_ok m m.cursor hc
  exact ⟨hc, ⟨r1, r2, r3⟩, selOK_of rfl rfl rfl hs, histOK_of rfl hh, hx, itemsOK_of rfl hi, hq⟩

lemma adjustScroll_mode (m : Model) : m.adjustScroll.mode = m.mode := by
  unfold Model.adjustScroll
  split_ifs <;> rfl

lemma adjustScroll_selection (m : Model) : m.adjustScroll.selection = m.selection := by
  unfold Model.adjustScroll
  split_ifs <;> rfl

lemma adjustScroll_completionState (m : Model) :
    m.adjustScroll.completionState = m.completionState := by
  unfold Model.adjustScroll
  split_ifs <;> rfl

lemma adjustScroll_commandState (m : Model) :
    m.adjustScroll.commandState = m.commandState := by
  unfold Model.adjustScroll
  split_ifs <;> rfl

/-- Motion row bounds. -/
lemma moveLeft_row (m : Model) (count : Nat) : (m.moveLeft count).Row = m.cursor.Row := rfl

lemma moveRight_row (m : Model) (count : Nat) : (m.moveRight count).Row = m.cursor.Row := by
  unfold Model.moveRight
  split_ifs <;> rfl

lemma moveUp_lt (m : Model) (count : Nat) (h : m.content ≠ []) :
    (m.moveUp count).Row < m.content.length :=
  (validateCursor_ok m _ h).1

lemma moveDown_lt (m : Model) (count : Nat) (h : m.content ≠ []) :
    (m.moveDown count).Row < m.content.length :=
  (validateCursor_ok m _ h).1

lemma moveToFirstNonWhitespace_row (m : Model) :
    m.moveToFirstNonWhitespace.Row = m.cursor.Row := by
  unfold Model.moveToFirstNonWhitespace
  split
  · split <;> rfl
  · rfl

lemma moveToEndOfLine_row (m : Model) : m.moveToEndOfLine.Row = m.cursor.Row := by
  unfold Model.moveToEndOfLine
  split_ifs <;> rfl

lemma moveToLine_lt (m : Model) (line : Nat) (h : m.content ≠ []) :
    (m.moveToLine line).Row < m.content.length :=
  (validateCursor_ok m _ h).1

lemma moveToLastLine_lt (m : Model) (h : m.content ≠ []) :
    m.moveToLastLine.Row < m.content.length :=
  (validateCursor_ok m _ h).1

lemma nextWord_lt (m : Model) (pos : Position) (b : Bool)
    (h : pos.Row < m.content.length) : (m.nextWord pos b).Row < m.content.length := by
  unfold Model.nextWord
  dsimp only
  split_ifs with h1 h2
  · exact h
  · dsimp only
    omega
  · exact h

lemma iterPos_preserves (f : Position → Position) (P : Position → Prop)
    (hf : ∀ p, P p → P (f p)) : ∀ (n : Nat) (p : Position), P p → P (iterPos f n p)
  | 0, _, hp => hp
  | n + 1, p, hp => iterPos_preserves f P hf n (f p) (hf p hp)

lemma nextWordEndAux_lt (m : Model) (b : Bool) :
    ∀ (fuel : Nat) (pos : Position), pos.Row < m.content.length →
      (nextWordEndAux m b fuel pos).Row < m.content.length
  | 0, pos, h => h
  | fuel + 1, pos, h => by
    unfold nextWordEndAux
    dsimp only
    split_ifs
    all_goals
      first
        | exact h
        | (dsimp only; omega)
        | exact nextWordEndAux_lt m b fuel ⟨pos.Row + 1, 0⟩ (by dsimp only; omega)
        | (split <;> first | (dsimp only; omega) | exact h)

lemma moveWordForward_lt (m : Model) (count : Nat) (h : m.cursor.Row < m.content.length) :
    (m.moveWordForward count).Row < m.content.length :=
  iterPos_preserves _ (fun p => p.Row < m.content.length)
    (fun p hp => nextWord_lt m p false hp) count m.cursor h

lemma moveWORDForward_lt (m : Model) (count : Nat) (h : m.cursor.Row < m.content.length) :
    (m.moveWORDForward count).Row < m.content.length :=
  iterPos_preserves _ (fun p => p.Row < m.content.length)
    (fun p hp => nextWord_lt m p true hp) count m.cursor h

lemma moveWordEnd_lt (m : Model) (count : Nat) (h : m.cursor.Row < m.content.length) :
    (m.moveWordEnd count).Row < m.content.length :=
  iterPos_preserves _ (fun p => p.Row < m.content.length)
    (fun p hp => nextWordEndAux_lt m false _ p hp) count m.cursor h

lemma moveWORDEnd_lt (m : Model) (count : Nat) (h : m.cursor.Row < m.content.length) :
    (m.moveWORDEnd count).Row < m.content.length :=
  iterPos_preserves _ (fun p => p.Row < m.content.length)
    (fun p hp => nextWordEndAux_lt m true _ p hp) count m.cursor h

lemma moveWordBackward_row (m : Model) (count : Nat) :
    (m.moveWordBackward count).Row = m.cursor.Row :=
  iterPos_row _ (fun p => prevWord_row m p false) count m.cursor

lemma moveWORDBackward_row (m : Model) (count : Nat) :
    (m.moveWORDBackward count).Row = m.cursor.Row :=
  iterPos_row _ (fun p => prevWord_row m p true) count m.cursor

end Vim

namespace Vim

lemma inv_of_sameCore {a b : Model} (hk : SameCore a b)
    (hi : b.completionState.Items = a.completionState.Items) (h : Inv a) : Inv b := by
  obtain ⟨hc, hp, hs, hm, hu, hq⟩ := hk
  obtain ⟨i1, i2, i3, i4, i5, i6, i7⟩ := h
  refine ⟨by rw [hc]; exact i1, cursorOK_of hc hp hm i2,
    selOK_of hs hm (by rw [hc]) i3, histOK_of (by rw [hu]) i4, ?_, ?_, ?_⟩
  · unfold HistIdxOK at *
    rw [hu]
    exact i5
  · unfold ItemsOK at *
    rw [hi]
    exact i6
  · unfold CmdOK at *
    rw [hq]
    exact i7

lemma sameCore_refl (m : Model) : SameCore m m := ⟨rfl, rfl, rfl, rfl, rfl, rfl⟩

lemma sameCore_trans {a b c : Model} (h1 : SameCore a b) (h2 : SameCore b c) :
    SameCore a c := by
  obtain ⟨x1, x2, x3, x4, x5, x6⟩ := h1
  obtain ⟨y1, y2, y3, y4, y5, y6⟩ := h2
  exact ⟨y1.trans x1, y2.trans x2, y3.trans x3, y4.trans x4, y5.trans x5, y6.trans x6⟩

lemma triggerCompletion_core (m : Model) (t : Char) :
    SameCore m (m.triggerCompletion t)
    ∧ (m.triggerCompletion t).completionState.Items = m.completionState.Items := by
  unfold Model.triggerCompletion Model.updateCompletionItems
  split_ifs <;> exact ⟨⟨rfl, rfl, rfl, rfl, rfl, rfl⟩, rfl⟩

lemma updateCompletion_core (m : Model) :
    SameCore m m.updateCompletion
    ∧ (ItemsOK m → ItemsOK m.updateCompletion) := by
  unfold Model.updateCompletion Model.updateCompletionItems
  dsimp only
  split_ifs <;>
    first
      | exact ⟨⟨rfl, rfl, rfl, rfl, rfl, rfl⟩, fun h => h⟩
      | exact ⟨⟨rfl, rfl, rfl, rfl, rfl, rfl⟩, fun _ => rfl⟩

lemma checkTriggerScan_core (m : Model) (line : Str) :
    ∀ i : Nat, SameCore m (m.checkTriggerScan line i)
      ∧ (m.checkTriggerScan line i).completionState.Items = m.completionState.Items
  | 0 => by
    unfold Model.checkTriggerScan Model.checkTriggerStep
    dsimp only
    split_ifs <;>
      first
        | exact ⟨sameCore_refl m, rfl⟩
        | exact ⟨(triggerCompletion_core m _).1, (triggerCompletion_core m _).2⟩
  | i + 1 => by
    obtain ⟨ih1, ih2⟩ := checkTriggerScan_core m line i
    unfold Model.checkTriggerScan Model.checkTriggerStep
    dsimp only
    split_ifs <;>
      first
        | exact ⟨sameCore_refl m, rfl⟩
        | exact ⟨(triggerCompletion_core m _).1, (triggerCompletion_core m _).2⟩
        | exact ⟨ih1, ih2⟩

lemma checkAndTriggerCompletion_core (m : Model) :
    SameCore m m.checkAndTriggerCompletion
    ∧ (ItemsOK m → ItemsOK m.checkAndTriggerCompletion) := by
  unfold Model.checkAndTriggerCompletion
  dsimp only
  split_ifs
  · exact updateCompletion_core m
  · exact ⟨sameCore_refl m, fun h => h⟩
  · exact ⟨sameCore_refl m, fun h => h⟩
  · refine ⟨(checkTriggerScan_core m _ _).1, fun h => ?_⟩
    unfold ItemsOK at *
    rw [(checkTriggerScan_core m _ _).2]
    exact h

lemma getSelectedItem_of_itemsOK (m : Model) (h : ItemsOK m) :
    m.completionState.GetSelectedItem = none := by
  unfold CompletionState.GetSelectedItem
  rw [if_neg]
  intro hcon
  have := hcon.1
  unfold ItemsOK at h
  rw [h] at this
  simp at this

lemma saveUndoState_frame (m : Model) :
    m.saveUndoState.content = m.content
    ∧ m.saveUndoState.cursor = m.cursor
    ∧ m.saveUndoState.selection = m.selection
    ∧ m.saveUndoState.mode = m.mode
    ∧ m.saveUndoState.completionState = m.completionState
    ∧ m.saveUndoState.commandState = m.commandState := by
  unfold Model.saveUndoState
  dsimp only
  split_ifs <;> exact ⟨rfl, rfl, rfl, rfl, rfl, rfl⟩

lemma histMem (S : List UndoState) (k : Nat) (new : UndoState)
    (h : ∀ st ∈ S, st.content ≠ []) (hnew : new.content ≠ []) :
    (∀ st ∈ S.take k ++ [new], st.content ≠ [])
    ∧ (∀ st ∈ (S.take k ++ [new]).drop 1, st.content ≠ [])
    ∧ (∀ st ∈ S ++ [new], st.content ≠ [])
    ∧ (∀ st ∈ (S ++ [new]).drop 1, st.content ≠ []) := by
  have base1 : ∀ st ∈ S.take k ++ [new], st.content ≠ [] := by
    intro st hst
    rcases List.mem_append.1 hst with h3 | h3
    · exact h st (List.take_subset _ _ h3)
    · rw [List.mem_singleton] at h3
      subst h3
      exact hnew
  have base2 : ∀ st ∈ S ++ [new], st.content ≠ [] := by
    intro st hst
    rcases List.mem_append.1 hst with h3 | h3
    · exact h st h3
    · rw [List.mem_singleton] at h3
      subst h3
      exact hnew
  exact ⟨base1, fun st hst => base1 st (List.drop_subset 1 _ hst),
    base2, fun st hst => base2 st (List.drop_subset 1 _ hst)⟩

lemma saveUndoState_histOK (m : Model) (h : HistOK m) (hc : m.content ≠ []) :
    HistOK m.saveUndoState := by
  unfold HistOK at *
  unfold Model.saveUndoState
  dsimp only
  split_ifs
  · exact h
  all_goals intro st hst
  all_goals dsimp only at hst
  · exact (histMem m.undoHistory.states _ _ h hc).2.1 st hst
  · exact (histMem m.undoHistory.states _ _ h hc).1 st hst
  · exact (histMem m.undoHistory.states 0 _ h hc).2.2.2 st hst
  · exact (histMem m.undoHistory.states 0 _ h hc).2.2.1 st hst

lemma saveUndoState_idxOK (m : Model) (h : HistIdxOK m) : HistIdxOK m.saveUndoState := by
  obtain ⟨h1, h2⟩ := h
  unfold HistIdxOK at *
  unfold Model.saveUndoState
  dsimp only
  split_ifs with hd he
  · exact ⟨h1, h2⟩
  all_goals
    simp only [List.length_append, List.length_take, List.length_cons, List.length_nil,
      List.length_drop]
  all_goals omega

end Vim

namespace Vim

lemma inv_normalTail' {m : Model} (h : PreInv m) : Inv m.normalTail :=
  inv_normalTail m h.1 h.2.1 h.2.2.1 h.2.2.2.1 h.2.2.2.2.1 h.2.2.2.2.2

lemma inv_revalidate' {m : Model} (h : PreInv m) :
    Inv { m with cursor := m.validateCursor m.cursor } :=
  inv_revalidate m h.1 h.2.1 h.2.2.1 h.2.2.2.1 h.2.2.2.2.1 h.2.2.2.2.2

lemma preInv_of_inv {m : Model} (h : Inv m) : PreInv m :=
  ⟨h.1, h.2.2.1, h.2.2.2.1, h.2.2.2.2.1, h.2.2.2.2.2.1, h.2.2.2.2.2.2⟩

/-- Transfer `PreInv` along an operation that keeps all invariant-relevant
fields (possibly excepting the cursor). -/
lemma preInv_keep {a b : Model} (hc : b.content = a.content)
    (hsel : b.selection = a.selection) (hmode : b.mode = a.mode)
    (hhist : b.undoHistory = a.undoHistory)
    (hitems : b.completionState.Items = a.completionState.Items)
    (hcmd : b.commandState = a.commandState) (h : PreInv a) : PreInv b := by
  obtain ⟨i1, i2, i3, i4, i5, i6⟩ := h
  refine ⟨by rw [hc]; exact i1, selOK_of hsel hmode (by rw [hc]) i2,
    histOK_of (by rw [hhist]) i3, ?_, ?_, ?_⟩
  · unfold HistIdxOK at *
    rw [hhist]
    exact i4
  · unfold ItemsOK at *
    rw [hitems]
    exact i5
  · unfold CmdOK at *
    rw [hcmd]
    exact i6

/-- Length-preserving variant (content may be rewritten line-wise). -/
lemma preInv_keepLen {a b : Model} (hc : b.content.length = a.content.length)
    (hsel : b.selection = a.selection) (hmode : b.mode = a.mode)
    (hhist : b.undoHistory = a.undoHistory)
    (hitems : b.completionState.Items = a.completionState.Items)
    (hcmd : b.commandState = a.commandState) (h : PreInv a) : PreInv b := by
  obtain ⟨i1, i2, i3, i4, i5, i6⟩ := h
  have hne : b.content ≠ [] := by
    intro hx
    apply i1
    rw [← List.length_eq_zero, ← hc, hx]
    rfl
  refine ⟨hne, selOK_of hsel hmode hc i2,
    histOK_of (by rw [hhist]) i3, ?_, ?_, ?_⟩
  · unfold HistIdxOK at *
    rw [hhist]
    exact i4
  · unfold ItemsOK at *
    rw [hitems]
    exact i5
  · unfold CmdOK at *
    rw [hcmd]
    exact i6

/-- Build `PreInv` for a Normal-mode mutator result. -/
lemma preInv_mut {b : Model} (hc : b.content ≠ []) (hsel : b.selection = none)
    (hmode : b.mode ≠ Mode.Visual) (hh : HistOK b) (hx : HistIdxOK b)
    (hi : ItemsOK b) (hq : CmdOK b) : PreInv b :=
  ⟨hc, selOK_none hsel hmode, hh, hx, hi, hq⟩

lemma startInsertSession_frame (m : Model) :
    m.startInsertSession.content = m.content
    ∧ m.startInsertSession.cursor = m.cursor
    ∧ m.startInsertSession.selection = m.selection
    ∧ m.startInsertSession.mode = m.mode
    ∧ m.startInsertSession.undoHistory = m.undoHistory
    ∧ m.startInsertSession.completionState = m.completionState
    ∧ m.startInsertSession.commandState = m.commandState := by
  rw [startInsertSession_eq]
  exact ⟨rfl, rfl, rfl, rfl, rfl, rfl, rfl⟩

lemma endInsertSession_facts (m : Model) (hh : HistOK m) (hx : HistIdxOK m)
    (hc : m.content ≠ []) :
    m.endInsertSession.content = m.content
    ∧ m.endInsertSession.cursor = m.cursor
    ∧ m.endInsertSession.selection = m.selection
    ∧ m.endInsertSession.mode = m.mode
    ∧ m.endInsertSession.completionState = m.completionState
    ∧ m.endInsertSession.commandState = m.commandState
    ∧ HistOK m.endInsertSession ∧ HistIdxOK m.endInsertSession := by
  unfold Model.endInsertSession
  obtain ⟨f1, f2, f3, f4, f5, f6⟩ := saveUndoState_frame m
  split_ifs
  · refine ⟨f1, f2, f3, f4, f5, f6, ?_, ?_⟩
    · exact histOK_of (show ({ m.saveUndoState with inInsertSession := false
          : Model}).undoHistory.states = m.saveUndoState.undoHistory.states from rfl)
        (saveUndoState_histOK m hh hc)
    · exact (saveUndoState_idxOK m hx : HistIdxOK m.saveUndoState)
  · exact ⟨rfl, rfl, rfl, rfl, rfl, rfl, hh, hx⟩

/-- `deleteCharOnce` keeps the line count and all frame fields. -/
lemma deleteCharOnce_facts (m : Model) :
    m.deleteCharOnce.content.length = m.content.length
    ∧ m.deleteCharOnce.cursor = m.cursor
    ∧ m.deleteCharOnce.selection = m.selection
    ∧ m.deleteCharOnce.mode = m.mode
    ∧ m.deleteCharOnce.undoHistory = m.undoHistory
    ∧ m.deleteCharOnce.completionState = m.completionState
    ∧ m.deleteCharOnce.commandState = m.commandState := by
  unfold Model.deleteCharOnce
  dsimp only
  split_ifs <;> first
    | exact ⟨rfl, rfl, rfl, rfl, rfl, rfl, rfl⟩
    | exact ⟨List.length_set .., rfl, rfl, rfl, rfl, rfl, rfl⟩

lemma deleteCharIter_facts (m : Model) : ∀ n : Nat,
    (Model.deleteCharOnce^[n] m).content.length = m.content.length
    ∧ (Model.deleteCharOnce^[n] m).selection = m.selection
    ∧ (Model.deleteCharOnce^[n] m).mode = m.mode
    ∧ (Model.deleteCharOnce^[n] m).undoHistory = m.undoHistory
    ∧ (Model.deleteCharOnce^[n] m).completionState = m.completionState
    ∧ (Model.deleteCharOnce^[n] m).commandState = m.commandState
  | 0 => ⟨rfl, rfl, rfl, rfl, rfl, rfl⟩
  | n + 1 => by
    rw [Function.iterate_succ_apply']
    obtain ⟨a1, a2, a3, a4, a5, a6⟩ := deleteCharIter_facts m n
    obtain ⟨b1, _, b3, b4, b5, b6, b7⟩ := deleteCharOnce_facts (Model.deleteCharOnce^[n] m)
    exact ⟨b1.trans a1, b3.trans a2, b4.trans a3, b5.trans a4, b6.trans a5, b7.trans a6⟩

lemma deleteChar_preInv (m : Model) (count : Nat) (h : PreInv m)
    (hmode : m.mode ≠ Mode.Visual) : PreInv (m.deleteChar count) := by
  unfold Model.deleteChar
  dsimp only
  obtain ⟨a1, a2, a3, a4, a5, a6⟩ := deleteCharIter_facts m count
  have hc1 : (Model.deleteCharOnce^[count] m).content ≠ [] := by
    intro hex
    apply h.1
    rw [← List.length_eq_zero, ← a1, hex]
    rfl
  have hpre : PreInv (Model.deleteCharOnce^[count] m) := by
    refine ⟨hc1, selOK_of a2 a3 a1 h.2.1, histOK_of (by rw [a4]) h.2.2.1, ?_, ?_, ?_⟩
    · unfold HistIdxOK at *
      rw [a4]
      exact h.2.2.2.1
    · unfold ItemsOK at *
      rw [a5]
      exact h.2.2.2.2.1
    · unfold CmdOK at *
      rw [a6]
      exact h.2.2.2.2.2
  split_ifs
  · set mm := Model.deleteCharOnce^[count] m
    obtain ⟨f1, f2, f3, f4, f5, f6⟩ := saveUndoState_frame mm
    refine ⟨by rw [f1]; exact hpre.1, selOK_of f3 f4 (by rw [f1]) hpre.2.1,
      saveUndoState_histOK mm hpre.2.2.1 hpre.1, saveUndoState_idxOK mm hpre.2.2.2.1, ?_, ?_⟩
    · unfold ItemsOK at *
      rw [f5]
      exact hpre.2.2.2.2.1
    · unfold CmdOK at *
      rw [f6]
      exact hpre.2.2.2.2.2
  · exact hpre

end Vim

namespace Vim

lemma ne_nil_of_len {α : Type} {l : List α} (h : 0 < l.length) : l ≠ [] := by
  intro he
  rw [he] at h
  simp at h

lemma len_ne_nil {l : List Str} (h : l ≠ []) : 0 < l.length := by
  cases l with
  | nil => exact absurd rfl h
  | cons a t => simp

/-- `saveUndoState` preserves `PreInv`. -/
lemma preInv_saveUndoState {mid : Model} (h : PreInv mid) : PreInv mid.saveUndoState := by
  obtain ⟨f1, f2, f3, f4, f5, f6⟩ := saveUndoState_frame mid
  refine ⟨by rw [f1]; exact h.1, selOK_of f3 f4 (by rw [f1]) h.2.1,
    saveUndoState_histOK mid h.2.2.1 h.1, saveUndoState_idxOK mid h.2.2.2.1, ?_, ?_⟩
  · unfold ItemsOK at *
    rw [f5]
    exact h.2.2.2.2.1
  · unfold CmdOK at *
    rw [f6]
    exact h.2.2.2.2.2

lemma yankLines_preInv (m : Model) (count : Nat) (h : PreInv m) :
    PreInv (m.yankLines count) :=
  preInv_keep rfl rfl rfl rfl rfl rfl h

lemma yankLine_preInv (m : Model) (h : PreInv m) : PreInv m.yankLine := by
  unfold Model.yankLine
  split_ifs <;> exact preInv_keep rfl rfl rfl rfl rfl rfl h

lemma yankRange_preInv (m : Model) (s e : Position) (h : PreInv m) :
    PreInv (m.yankRange s e) := by
  unfold Model.yankRange
  split_ifs <;> exact preInv_keep rfl rfl rfl rfl rfl rfl h

lemma yankSelection_preInv (m : Model) (h : PreInv m) : PreInv m.yankSelection := by
  unfold Model.yankSelection
  cases hsel : m.selection with
  | none => exact h
  | some sel =>
    dsimp only
    split_ifs <;>
      refine preInv_keep ?_ ?_ ?_ ?_ ?_ ?_ h <;> first | rfl | rw [hsel]

lemma deleteToEndOfLine_preInv (m : Model) (h : PreInv m) :
    PreInv m.deleteToEndOfLine := by
  unfold Model.deleteToEndOfLine
  dsimp only
  apply preInv_saveUndoState
  split_ifs
  · exact preInv_keepLen (List.length_set ..) rfl rfl rfl rfl rfl h
  · exact h
  · exact h

lemma deleteLines_preInv (m : Model) (count : Nat) (h : PreInv m)
    (hrow : m.cursor.Row < m.content.length) (hcount : 1 ≤ count)
    (hselnone : m.selection = none) (hmode : m.mode ≠ Mode.Visual) :
    PreInv (m.deleteLines count) := by
  unfold Model.deleteLines
  dsimp only
  split_ifs with hcollapse hclamp
  · apply preInv_saveUndoState
    exact ⟨by simp, selOK_none hselnone hmode, histOK_of rfl h.2.2.1,
      h.2.2.2.1, h.2.2.2.2.1, h.2.2.2.2.2⟩
  all_goals apply preInv_saveUndoState
  all_goals
    have hlen : 0 < (m.content.take m.cursor.Row
        ++ m.content.drop (min (m.cursor.Row + count - 1) (m.content.length - 1) + 1)).length := by
      simp only [List.length_append, List.length_take, List.length_drop]
      omega
  all_goals refine ⟨?_, ?_, ?_, ?_, ?_, ?_⟩
  all_goals
    first
      | (rw [adjustScroll_content]; exact ne_nil_of_len hlen)
      | exact selOK_none (by rw [adjustScroll_selection]; exact hselnone)
          (by rw [adjustScroll_mode]; exact hmode)
      | exact histOK_of (by rw [adjustScroll_undoHistory]) h.2.2.1
      | (unfold HistIdxOK at *
         rw [adjustScroll_undoHistory]
         exact h.2.2.2.1)
      | (unfold ItemsOK at *
         rw [adjustScroll_completionState]
         exact h.2.2.2.2.1)
      | (unfold CmdOK at *
         rw [adjustScroll_commandState]
         exact h.2.2.2.2.2)

end Vim

namespace Vim

lemma getD_mem' {α : Type} (l : List α) (n : Nat) (d : α) (h : n < l.length) :
    l.getD n d ∈ l := by
  rw [List.getD_eq_getElem l d h]
  exact List.get_mem l n h

lemma deleteRange_preInv (m : Model) (s e : Position) (h : PreInv m)
    (he : e.Row < m.content.length)
    (hselnone : m.selection = none) (hmode : m.mode ≠ Mode.Visual) :
    PreInv (m.deleteRange s e) := by
  unfold Model.deleteRange
  dsimp only
  split_ifs with hrow
  · exact preInv_saveUndoState
      (preInv_keepLen (List.length_set ..) rfl rfl rfl rfl rfl h)
  · apply preInv_saveUndoState
    refine ⟨?_, selOK_none hselnone hmode, histOK_of rfl h.2.2.1,
      h.2.2.2.1, h.2.2.2.2.1, h.2.2.2.2.2⟩
    apply ne_nil_of_len
    simp only [List.length_take, List.length_append, List.length_cons, List.length_nil,
      List.length_drop]
    omega

lemma normalizeSelection_cases (sel : Selection) :
    normalizeSelection sel = (sel.End, sel.Start)
    ∨ normalizeSelection sel = (sel.Start, sel.End) := by
  unfold normalizeSelection
  split_ifs
  · exact Or.inl rfl
  · exact Or.inr rfl

lemma deleteSelection_facts (m : Model) (h : PreInv m) :
    m.deleteSelection.content ≠ []
    ∧ HistOK m.deleteSelection ∧ HistIdxOK m.deleteSelection
    ∧ m.deleteSelection.completionState = m.completionState
    ∧ m.deleteSelection.commandState = m.commandState := by
  unfold Model.deleteSelection
  cases hsel : m.selection with
  | none => exact ⟨h.1, h.2.2.1, h.2.2.2.1, rfl, rfl⟩
  | some sel =>
    obtain ⟨_, hs1, hs2⟩ := h.2.1.2 sel hsel
    have hrows : (normalizeSelection sel).2.Row < m.content.length := by
      rcases normalizeSelection_cases sel with hn | hn <;> rw [hn] <;> assumption
    dsimp only
    obtain ⟨f1, _, _, _, f5, f6⟩ := saveUndoState_frame
      (if hh : (normalizeSelection sel).1.Row = (normalizeSelection sel).2.Row then m else m)
    split_ifs with hrow
    all_goals refine ⟨?_, ?_, ?_, ?_, ?_⟩
    · rw [(saveUndoState_frame _).1]
      apply ne_nil_of_len
      simp only [List.length_set]
      exact len_ne_nil h.1
    · exact saveUndoState_histOK _ (histOK_of rfl h.2.2.1) (by
        apply ne_nil_of_len
        simp only [List.length_set]
        exact len_ne_nil h.1)
    · exact saveUndoState_idxOK _ h.2.2.2.1
    · rw [(saveUndoState_frame _).2.2.2.2.1]
    · rw [(saveUndoState_frame _).2.2.2.2.2]
    · rw [(saveUndoState_frame _).1]
      apply ne_nil_of_len
      simp only [List.length_take, List.length_append, List.length_cons, List.length_nil,
        List.length_drop]
      omega
    · refine saveUndoState_histOK _ (histOK_of rfl h.2.2.1) ?_
      apply ne_nil_of_len
      simp only [List.length_take, List.length_append, List.length_cons, List.length_nil,
        List.length_drop]
      omega
    · exact saveUndoState_idxOK _ h.2.2.2.1
    · rw [(saveUndoState_frame _).2.2.2.2.1]
    · rw [(saveUndoState_frame _).2.2.2.2.2]

lemma insertText_facts (m : Model) (t : Str) :
    (m.insertText t).content.length = m.content.length
    ∧ (m.insertText t).selection = m.selection
    ∧ (m.insertText t).mode = m.mode
    ∧ (m.insertText t).undoHistory = m.undoHistory
    ∧ (m.insertText t).completionState = m.completionState
    ∧ (m.insertText t).commandState = m.commandState := by
  unfold Model.insertText
  dsimp only
  split_ifs <;> first
    | exact ⟨rfl, rfl, rfl, rfl, rfl, rfl⟩
    | exact ⟨List.length_set .., rfl, rfl, rfl, rfl, rfl⟩

lemma insertText_preInv (m : Model) (t : Str) (h : PreInv m) : PreInv (m.insertText t) := by
  obtain ⟨a1, a2, a3, a4, a5, a6⟩ := insertText_facts m t
  exact preInv_keepLen a1 a2 a3 a4 (by rw [a5]) a6 h

lemma insertNewLine_preInv (m : Model) (h : PreInv m) (hmv : m.mode ≠ Mode.Visual) :
    PreInv m.insertNewLine := by
  have hn : m.selection = none := selOK_normal_none h.2.1 hmv
  unfold Model.insertNewLine
  dsimp only
  split_ifs
  · exact h
  · refine preInv_mut ?_ hn hmv (histOK_of rfl h.2.2.1) h.2.2.2.1 h.2.2.2.2.1 h.2.2.2.2.2
    apply ne_nil_of_len
    simp only [List.length_take, List.length_append, List.length_cons, List.length_nil,
      List.length_drop]
    omega

lemma insertNewLineBelow_preInv (m : Model) (h : PreInv m) (hmv : m.mode ≠ Mode.Visual) :
    PreInv m.insertNewLineBelow := by
  have hn : m.selection = none := selOK_normal_none h.2.1 hmv
  unfold Model.insertNewLineBelow
  refine preInv_mut ?_ hn hmv (histOK_of rfl h.2.2.1) h.2.2.2.1 h.2.2.2.2.1 h.2.2.2.2.2
  apply ne_nil_of_len
  simp only [List.length_take, List.length_append, List.length_cons, List.length_nil,
    List.length_drop]
  omega

lemma insertNewLineAbove_preInv (m : Model) (h : PreInv m) (hmv : m.mode ≠ Mode.Visual) :
    PreInv m.insertNewLineAbove := by
  have hn : m.selection = none := selOK_normal_none h.2.1 hmv
  unfold Model.insertNewLineAbove
  refine preInv_mut ?_ hn hmv (histOK_of rfl h.2.2.1) h.2.2.2.1 h.2.2.2.2.1 h.2.2.2.2.2
  apply ne_nil_of_len
  simp only [List.length_take, List.length_append, List.length_cons, List.length_nil,
    List.length_drop]
  omega

lemma pasteAfter_preInv (m : Model) (h : PreInv m) (hmv : m.mode ≠ Mode.Visual) :
    PreInv m.pasteAfter := by
  have hn : m.selection = none := selOK_normal_none h.2.1 hmv
  have hlen := len_ne_nil h.1
  unfold Model.pasteAfter
  dsimp only
  split_ifs
  · exact h
  · apply preInv_saveUndoState
    refine preInv_mut ?_ hn hmv (histOK_of rfl h.2.2.1) h.2.2.2.1 h.2.2.2.2.1 h.2.2.2.2.2
    apply ne_nil_of_len
    simp only [List.length_take, List.length_append, List.length_cons, List.length_nil,
      List.length_drop]
    omega
  · apply preInv_saveUndoState
    obtain ⟨a1, a2, a3, a4, a5, a6⟩ :=
      insertText_facts { m with cursor := m.moveRight 1 } m.clipboard
    refine preInv_mut ?_ (a2.trans hn) (by rw [a3]; exact hmv)
      (histOK_of (by rw [a4]) h.2.2.1) ?_ ?_ ?_
    · apply ne_nil_of_len
      rw [a1]
      exact hlen
    · unfold HistIdxOK at *
      rw [a4]
      exact h.2.2.2.1
    · unfold ItemsOK at *
      rw [a5]
      exact h.2.2.2.2.1
    · unfold CmdOK at *
      rw [a6]
      exact h.2.2.2.2.2

lemma pasteBefore_preInv (m : Model) (h : PreInv m) (hmv : m.mode ≠ Mode.Visual) :
    PreInv m.pasteBefore := by
  have hn : m.selection = none := selOK_normal_none h.2.1 hmv
  have hlen := len_ne_nil h.1
  unfold Model.pasteBefore
  dsimp only
  split_ifs
  · exact h
  · apply preInv_saveUndoState
    refine preInv_mut ?_ hn hmv (histOK_of rfl h.2.2.1) h.2.2.2.1 h.2.2.2.2.1 h.2.2.2.2.2
    apply ne_nil_of_len
    simp only [List.length_take, List.length_append, List.length_cons, List.length_nil,
      List.length_drop]
    omega
  · apply preInv_saveUndoState
    exact insertText_preInv m m.clipboard h

end Vim

namespace Vim

lemma getD_set_self {α : Type} (l : List α) (i : Nat) (x d : α) (h : i < l.length) :
    (l.set i x).getD i d = x := by
  rw [List.getD_eq_getElem _ d (by simpa using h)]
  exact List.getElem_set_self (by simpa using h)

lemma getD_take' {α : Type} (l : List α) (n i : Nat) (d : α) (h : i < n)
    (h2 : i < l.length) : (l.take n).getD i d = l.getD i d := by
  rw [List.getD_eq_getElem _ d (by simp; omega), List.getD_eq_getElem _ d h2]
  exact List.getElem_take l

lemma insertText_cursorOK (m : Model) (t : Str) (hcur : CursorOK m)
    (hmn : m.mode ≠ Mode.Normal) : CursorOK (m.insertText t) := by
  obtain ⟨c1, c2, _⟩ := hcur
  unfold Model.insertText
  dsimp only
  split_ifs with hg
  · exact ⟨c1, c2, fun hm _ => absurd hm hmn⟩
  · push_neg at hg
    refine ⟨by simpa using c1, ?_, fun hm _ => absurd hm hmn⟩
    unfold Model.lineAt at *
    dsimp only
    rw [getD_set_self _ _ _ _ c1]
    simp only [List.length_append, List.length_take, List.length_drop]
    omega

lemma backspace_preInv (m : Model) (h : PreInv m) (hmv : m.mode ≠ Mode.Visual)
    (hrow : m.cursor.Row < m.content.length) : PreInv m.backspace := by
  have hn : m.selection = none := selOK_normal_none h.2.1 hmv
  have hlen := len_ne_nil h.1
  unfold Model.backspace
  split_ifs with h1 h2
  · refine preInv_mut ?_ (by rw [adjustScroll_selection]; exact hn)
      (by rw [adjustScroll_mode]; exact hmv)
      (histOK_of (by rw [adjustScroll_undoHistory]) h.2.2.1) ?_ ?_ ?_
    · rw [adjustScroll_content]
      apply ne_nil_of_len
      simpa using hlen
    · unfold HistIdxOK at *
      rw [adjustScroll_undoHistory]
      exact h.2.2.2.1
    · unfold ItemsOK at *
      rw [adjustScroll_completionState]
      exact h.2.2.2.2.1
    · unfold CmdOK at *
      rw [adjustScroll_commandState]
      exact h.2.2.2.2.2
  · refine preInv_mut ?_ (by rw [adjustScroll_selection]; exact hn)
      (by rw [adjustScroll_mode]; exact hmv)
      (histOK_of (by rw [adjustScroll_undoHistory]) h.2.2.1) ?_ ?_ ?_
    · rw [adjustScroll_content]
      apply ne_nil_of_len
      simp only [List.length_take, List.length_append, List.length_set, List.length_drop]
      omega
    · unfold HistIdxOK at *
      rw [adjustScroll_undoHistory]
      exact h.2.2.2.1
    · unfold ItemsOK at *
      rw [adjustScroll_completionState]
      exact h.2.2.2.2.1
    · unfold CmdOK at *
      rw [adjustScroll_commandState]
      exact h.2.2.2.2.2
  · refine preInv_mut ?_ (by rw [adjustScroll_selection]; exact hn)
      (by rw [adjustScroll_mode]; exact hmv)
      (histOK_of (by rw [adjustScroll_undoHistory]) h.2.2.1) ?_ ?_ ?_
    · rw [adjustScroll_content]
      exact h.1
    · unfold HistIdxOK at *
      rw [adjustScroll_undoHistory]
      exact h.2.2.2.1
    · unfold ItemsOK at *
      rw [adjustScroll_completionState]
      exact h.2.2.2.2.1
    · unfold CmdOK at *
      rw [adjustScroll_commandState]
      exact h.2.2.2.2.2

lemma backspace_cursorOK (m : Model) (hcur : CursorOK m) (hmn : m.mode ≠ Mode.Normal) :
    CursorOK m.backspace := by
  obtain ⟨c1, c2, _⟩ := hcur
  have hmode_pres : m.backspace.mode = m.mode := by
    unfold Model.backspace
    split_ifs <;> rw [adjustScroll_mode]
  refine ⟨?_, ?_, fun hm _ => absurd (hmode_pres ▸ hm) hmn⟩ <;>
    (unfold Model.backspace Model.lineAt at *
     split_ifs with h1 h2)
  · rw [adjustScroll_content, adjustScroll_cursor]
    simpa using c1
  · rw [adjustScroll_content, adjustScroll_cursor]
    dsimp only
    simp only [List.length_take, List.length_append, List.length_set, List.length_drop]
    omega
  · rw [adjustScroll_content, adjustScroll_cursor]
    exact c1
  · rw [adjustScroll_content, adjustScroll_cursor]
    dsimp only
    rw [getD_set_self _ _ _ _ c1]
    simp only [List.length_append, List.length_take, List.length_drop]
    omega
  · rw [adjustScroll_content, adjustScroll_cursor]
    dsimp only
    rw [List.getD_append _ _ _ _ (by simp only [List.length_take, List.length_set]; omega),
        getD_take' _ _ _ _ (by omega) (by simp only [List.length_set]; omega),
        getD_set_self _ _ _ _ (by omega)]
    simp
  · rw [adjustScroll_content, adjustScroll_cursor]
    exact c2

end Vim

namespace Vim

lemma preInv_intoInsert {X : Model} (h : PreInv X) (hsel : X.selection = none) :
    PreInv { X.startInsertSession with mode := Mode.Insert } := by
  rw [startInsertSession_eq]
  exact ⟨h.1, selOK_none hsel (fun hx => Mode.noConfusion hx), h.2.2.1, h.2.2.2.1,
    h.2.2.2.2.1, h.2.2.2.2.2⟩

lemma deleteToEndOfLine_selection (m : Model) :
    m.deleteToEndOfLine.selection = m.selection := by
  unfold Model.deleteToEndOfLine
  dsimp only
  split_ifs <;> (rw [(saveUndoState_frame _).2.2.1])

lemma deleteLines_selection (m : Model) (count : Nat) :
    (m.deleteLines count).selection = m.selection := by
  unfold Model.deleteLines
  dsimp only
  split_ifs <;> (rw [(saveUndoState_frame _).2.2.1]; try rw [adjustScroll_selection])

lemma deleteRange_selection (m : Model) (s e : Position) :
    (m.deleteRange s e).selection = m.selection := by
  unfold Model.deleteRange
  dsimp only
  split_ifs <;> (rw [(saveUndoState_frame _).2.2.1])

lemma undo_preInv (m : Model) (h : PreInv m) (hmv : m.mode ≠ Mode.Visual) :
    PreInv m.undo := by
  have hn : m.selection = none := selOK_normal_none h.2.1 hmv
  have hx := h.2.2.2.1
  unfold HistIdxOK at hx
  unfold Model.undo
  dsimp only
  split_ifs with hi
  · exact h
  · refine preInv_mut ?_ (by rw [adjustScroll_selection]; exact hn)
      (by rw [adjustScroll_mode]; exact hmv)
      (histOK_of (by rw [adjustScroll_undoHistory]) h.2.2.1) ?_ ?_ ?_
    · rw [adjustScroll_content]
      exact h.2.2.1 _ (getD_mem' _ _ _ (by omega))
    · unfold HistIdxOK
      rw [adjustScroll_undoHistory]
      dsimp only
      omega
    · unfold ItemsOK at *
      rw [adjustScroll_completionState]
      exact h.2.2.2.2.1
    · unfold CmdOK at *
      rw [adjustScroll_commandState]
      exact h.2.2.2.2.2

lemma redo_preInv (m : Model) (h : PreInv m) (hmv : m.mode ≠ Mode.Visual) :
    PreInv m.redo := by
  have hn : m.selection = none := selOK_normal_none h.2.1 hmv
  have hx := h.2.2.2.1
  unfold HistIdxOK at hx
  unfold Model.redo
  dsimp only
  split_ifs with hi
  · exact h
  · refine preInv_mut ?_ (by rw [adjustScroll_selection]; exact hn)
      (by rw [adjustScroll_mode]; exact hmv)
      (histOK_of (by rw [adjustScroll_undoHistory]) h.2.2.1) ?_ ?_ ?_
    · rw [adjustScroll_content]
      exact h.2.2.1 _ (getD_mem' _ _ _ (by omega))
    · unfold HistIdxOK
      rw [adjustScroll_undoHistory]
      dsimp only
      omega
    · unfold ItemsOK at *
      rw [adjustScroll_completionState]
      exact h.2.2.2.2.1
    · unfold CmdOK at *
      rw [adjustScroll_commandState]
      exact h.2.2.2.2.2

lemma changeToEndOfLine_preInv (m : Model) (h : PreInv m) (hmv : m.mode ≠ Mode.Visual) :
    PreInv m.changeToEndOfLine := by
  unfold Model.changeToEndOfLine
  refine preInv_intoInsert (deleteToEndOfLine_preInv m h) ?_
  rw [deleteToEndOfLine_selection]
  exact selOK_normal_none h.2.1 hmv

lemma changeLines_preInv (m : Model) (count : Nat) (h : PreInv m)
    (hrow : m.cursor.Row < m.content.length) (hcount : 1 ≤ count)
    (hmv : m.mode ≠ Mode.Visual) : PreInv (m.changeLines count) := by
  have hn : m.selection = none := selOK_normal_none h.2.1 hmv
  unfold Model.changeLines
  refine preInv_intoInsert (deleteLines_preInv m count h hrow hcount hn hmv) ?_
  rw [deleteLines_selection]
  exact hn

lemma changeRange_preInv (m : Model) (s e : Position) (h : PreInv m)
    (he : e.Row < m.content.length) (hmv : m.mode ≠ Mode.Visual) :
    PreInv (m.changeRange s e) := by
  have hn : m.selection = none := selOK_normal_none h.2.1 hmv
  unfold Model.changeRange
  refine preInv_intoInsert (deleteRange_preInv m s e h he hn hmv) ?_
  rw [deleteRange_selection]
  exact hn

end Vim

namespace Vim

lemma inv_of_preInv_cursorOK {m : Model} (h : PreInv m) (hc : CursorOK m) : Inv m :=
  ⟨h.1, hc, h.2.1, h.2.2.1, h.2.2.2.1, h.2.2.2.2.1, h.2.2.2.2.2⟩

lemma cursorOK_of_sameCore {a b : Model} (hk : SameCore a b) (h : CursorOK a) : CursorOK b :=
  cursorOK_of hk.1 hk.2.1 hk.2.2.2.1 h

lemma preInv_of_sameCore {a b : Model} (hk : SameCore a b)
    (hi : b.completionState.Items = a.completionState.Items) (h : PreInv a) : PreInv b := by
  obtain ⟨hc, _hp, hs, hm, hu, hq⟩ := hk
  refine ⟨by rw [hc]; exact h.1, selOK_of hs hm (by rw [hc]) h.2.1,
    histOK_of (by rw [hu]) h.2.2.1, ?_, ?_, ?_⟩
  · unfold HistIdxOK at *
    rw [hu]
    exact h.2.2.2.1
  · unfold ItemsOK at *
    rw [hi]
    exact h.2.2.2.2.1
  · unfold CmdOK at *
    rw [hq]
    exact h.2.2.2.2.2

lemma inv_keepAll {a b : Model} (hc : b.content = a.content) (hp : b.cursor = a.cursor)
    (hsel : b.selection = a.selection) (hmode : b.mode = a.mode)
    (hhist : b.undoHistory = a.undoHistory)
    (hitems : b.completionState.Items = a.completionState.Items)
    (hcmd : b.commandState = a.commandState) (h : Inv a) : Inv b := by
  refine ⟨by rw [hc]; exact h.1, cursorOK_of hc hp hmode h.2.1,
    selOK_of hsel hmode (by rw [hc]) h.2.2.1, histOK_of (by rw [hhist]) h.2.2.2.1, ?_, ?_, ?_⟩
  · unfold HistIdxOK at *
    rw [hhist]
    exact h.2.2.2.2.1
  · unfold ItemsOK at *
    rw [hitems]
    exact h.2.2.2.2.2.1
  · unfold CmdOK at *
    rw [hcmd]
    exact h.2.2.2.2.2.2

lemma preInv_clearCmd {a : Model} (h : PreInv a) :
    PreInv { a with commandState := (⟨[], 0, 0, false⟩ : CommandState) } := by
  refine ⟨h.1, ?_, histOK_of rfl h.2.2.1, h.2.2.2.1, h.2.2.2.2.1,
    fun hx => Bool.noConfusion hx⟩
  refine selOK_of ?_ ?_ ?_ h.2.1 <;> rfl

lemma inv_clearCmd {a : Model} (h : Inv a) :
    Inv { a with commandState := (⟨[], 0, 0, false⟩ : CommandState) } := by
  refine ⟨h.1, ?_, ?_, histOK_of rfl h.2.2.2.1, h.2.2.2.2.1, h.2.2.2.2.2.1,
    fun hx => Bool.noConfusion hx⟩
  · refine cursorOK_of ?_ ?_ ?_ h.2.1 <;> rfl
  · refine selOK_of ?_ ?_ ?_ h.2.2.1 <;> rfl

lemma inv_moveTail {m : Model} (h : PreInv m) (p : Position) :
    Inv (Model.adjustScroll { m with cursor := p }).normalTail := by
  apply inv_normalTail'
  refine preInv_keep ?_ ?_ ?_ ?_ ?_ ?_ h
  · rw [adjustScroll_content]
  · rw [adjustScroll_selection]
  · rw [adjustScroll_mode]
  · rw [adjustScroll_undoHistory]
  · rw [adjustScroll_completionState]
  · rw [adjustScroll_commandState]

lemma inv_cursorTail {m : Model} (h : PreInv m) (p : Position) :
    Inv ({ m with cursor := p }).normalTail := by
  apply inv_normalTail'
  refine preInv_keep ?_ ?_ ?_ ?_ ?_ ?_ h <;> rfl

lemma inv_handleGCommand {m : Model} (h : Inv m) : Inv m.handleGCommand := by
  unfold Model.handleGCommand
  refine ⟨h.1, ⟨?_, ?_, ?_⟩, ?_, histOK_of rfl h.2.2.2.1, h.2.2.2.2.1,
    h.2.2.2.2.2.1, h.2.2.2.2.2.2⟩
  · show (0 : Nat) < m.content.length
    exact len_ne_nil h.1
  · exact Nat.zero_le _
  · intro _ hne
    exact List.length_pos.mpr hne
  · refine selOK_of ?_ ?_ ?_ h.2.2.1 <;> rfl

lemma preInv_setInsert {X : Model} (h : PreInv X) (hsel : X.selection = none) :
    PreInv { X with mode := Mode.Insert } :=
  ⟨h.1, selOK_none hsel (fun hx => Mode.noConfusion hx), h.2.2.1, h.2.2.2.1,
    h.2.2.2.2.1, h.2.2.2.2.2⟩

lemma startInsertSession_preInv {m : Model} (h : PreInv m) : PreInv m.startInsertSession := by
  obtain ⟨f1, _f2, f3, f4, f5, f6, f7⟩ := startInsertSession_frame m
  exact preInv_keep f1 f3 f4 f5 (by rw [f6]) f7 h

lemma preInv_insertMove {m : Model} (h : PreInv m) (hsel : m.selection = none) (p : Position) :
    PreInv { Model.adjustScroll { m.startInsertSession with cursor := p } with
             mode := Mode.Insert } := by
  have f := startInsertSession_frame m
  refine ⟨?_, selOK_none ?_ (fun hx => Mode.noConfusion hx), histOK_of ?_ h.2.2.1, ?_, ?_, ?_⟩
  · dsimp only
    rw [adjustScroll_content]
    show m.startInsertSession.content ≠ []
    rw [f.1]
    exact h.1
  · dsimp only
    rw [adjustScroll_selection]
    show m.startInsertSession.selection = none
    rw [f.2.2.1]
    exact hsel
  · dsimp only
    rw [adjustScroll_undoHistory]
    show m.startInsertSession.undoHistory.states = m.undoHistory.states
    rw [f.2.2.2.2.1]
  · unfold HistIdxOK
    dsimp only
    rw [adjustScroll_undoHistory]
    show -1 ≤ m.startInsertSession.undoHistory.index
      ∧ m.startInsertSession.undoHistory.index
        < (m.startInsertSession.undoHistory.states.length : Int)
    rw [f.2.2.2.2.1]
    exact h.2.2.2.1
  · unfold ItemsOK
    dsimp only
    rw [adjustScroll_completionState]
    show m.startInsertSession.completionState.Items = []
    rw [f.2.2.2.2.2.1]
    exact h.2.2.2.2.1
  · unfold CmdOK
    dsimp only
    rw [adjustScroll_commandState]
    show m.startInsertSession.commandState.awaitingMotion = true
      → 1 ≤ m.startInsertSession.commandState.count
    rw [f.2.2.2.2.2.2]
    exact h.2.2.2.2.2

lemma inv_setOperator {m : Model} (h : Inv m) (op : Str) (c0 : Nat) (hc : 1 ≤ c0) :
    Inv { m with commandState := (⟨op, c0, 0, true⟩ : CommandState) } := by
  refine ⟨h.1, ?_, ?_, histOK_of rfl h.2.2.2.1, h.2.2.2.2.1, h.2.2.2.2.2.1, fun _ => hc⟩
  · refine cursorOK_of ?_ ?_ ?_ h.2.1 <;> rfl
  · refine selOK_of ?_ ?_ ?_ h.2.2.1 <;> rfl

lemma selectNext_items (c : CompletionState) : c.SelectNext.Items = c.Items := by
  unfold CompletionState.SelectNext
  split_ifs <;> rfl

lemma selectPrev_items (c : CompletionState) : c.SelectPrev.Items = c.Items := by
  unfold CompletionState.SelectPrev
  split_ifs <;> rfl

lemma executeOperation_preInv (m : Model) (sp ep : Position) (h : PreInv m)
    (hmv : m.mode ≠ Mode.Visual) (hsp : sp.Row < m.content.length)
    (hep : ep.Row < m.content.length) : PreInv (m.executeOperation sp ep) := by
  have hn : m.selection = none := selOK_normal_none h.2.1 hmv
  unfold Model.executeOperation
  dsimp only
  split_ifs <;>
    first
      | exact h
      | exact deleteRange_preInv m _ _ h (by first | exact hsp | exact hep) hn hmv
      | exact yankRange_preInv m _ _ h
      | exact changeRange_preInv m _ _ h (by first | exact hsp | exact hep) hmv

lemma executeLineOperation_inv (m : Model) (count : Nat) (h : PreInv m)
    (hrow : m.cursor.Row < m.content.length) (hcount : 1 ≤ count)
    (hmv : m.mode ≠ Mode.Visual) : Inv (m.executeLineOperation count) := by
  have hn : m.selection = none := selOK_normal_none h.2.1 hmv
  unfold Model.executeLineOperation
  dsimp only
  split_ifs
  · exact inv_revalidate' (preInv_clearCmd (deleteLines_preInv m count h hrow hcount hn hmv))
  · exact inv_revalidate' (preInv_clearCmd (yankLines_preInv m count h))
  · exact inv_revalidate' (preInv_clearCmd (changeLines_preInv m count h hrow hcount hmv))
  · exact inv_revalidate' (preInv_clearCmd h)

lemma motionTarget_row (m : Model) (s : Str) (c : Nat) (hc0 : m.content ≠ [])
    (hrow : m.cursor.Row < m.content.length) :
    ∀ e, m.motionTarget s c = some e → e.Row < m.content.length := by
  intro e he
  unfold Model.motionTarget at he
  by_cases c1 : s = ['h'] ∨ s = ['l', 'e', 'f', 't']
  · rw [if_pos c1] at he
    injection he with h2
    subst h2
    rw [moveLeft_row]
    exact hrow
  · rw [if_neg c1] at he
    by_cases c2 : s = ['l'] ∨ s = ['r', 'i', 'g', 'h', 't']
    · rw [if_pos c2] at he
      injection he with h2
      subst h2
      rw [moveRight_row]
      exact hrow
    · rw [if_neg c2] at he
      by_cases c3 : s = ['j'] ∨ s = ['d', 'o', 'w', 'n']
      · rw [if_pos c3] at he
        injection he with h2
        subst h2
        exact moveDown_lt m _ hc0
      · rw [if_neg c3] at he
        by_cases c4 : s = ['k'] ∨ s = ['u', 'p']
        · rw [if_pos c4] at he
          injection he with h2
          subst h2
          exact moveUp_lt m _ hc0
        · rw [if_neg c4] at he
          by_cases c5 : s = ['w']
          · rw [if_pos c5] at he
            injection he with h2
            subst h2
            exact moveWordForward_lt m _ hrow
          · rw [if_neg c5] at he
            by_cases c6 : s = ['W']
            · rw [if_pos c6] at he
              injection he with h2
              subst h2
              exact moveWORDForward_lt m _ hrow
            · rw [if_neg c6] at he
              by_cases c7 : s = ['b']
              · rw [if_pos c7] at he
                injection he with h2
                subst h2
                rw [moveWordBackward_row]
                exact hrow
              · rw [if_neg c7] at he
                by_cases c8 : s = ['B']
                · rw [if_pos c8] at he
                  injection he with h2
                  subst h2
                  rw [moveWORDBackward_row]
                  exact hrow
                · rw [if_neg c8] at he
                  by_cases c9 : s = ['e']
                  · rw [if_pos c9] at he
                    injection he with h2
                    subst h2
                    exact moveWordEnd_lt m _ hrow
                  · rw [if_neg c9] at he
                    by_cases c10 : s = ['E']
                    · rw [if_pos c10] at he
                      injection he with h2
                      subst h2
                      exact moveWORDEnd_lt m _ hrow
                    · rw [if_neg c10] at he
                      by_cases c11 : s = ['0']
                      · rw [if_pos c11] at he
                        injection he with h2
                        subst h2
                        exact hrow
                      · rw [if_neg c11] at he
                        by_cases c12 : s = ['^']
                        · rw [if_pos c12] at he
                          injection he with h2
                          subst h2
                          rw [moveToFirstNonWhitespace_row]
                          exact hrow
                        · rw [if_neg c12] at he
                          by_cases c13 : s = ['_']
                          · rw [if_pos c13] at he
                            injection he with h2
                            subst h2
                            rw [moveToFirstNonWhitespace_row]
                            exact hrow
                          · rw [if_neg c13] at he
                            by_cases c14 : s = ['$']
                            · rw [if_pos c14] at he
                              injection he with h2
                              subst h2
                              rw [moveToEndOfLine_row]
                              exact hrow
                            · rw [if_neg c14] at he
                              by_cases c15 : s = ['G']
                              · rw [if_pos c15] at he
                                injection he with h2
                                subst h2
                                split_ifs
                                · exact moveToLastLine_lt m hc0
                                · exact moveToLine_lt m _ hc0
                              · rw [if_neg c15] at he
                                cases he

set_option maxHeartbeats 1600000 in
lemma handleMotionCommand_inv (m : Model) (k : Key) (h : Inv m)
    (hmv : m.mode ≠ Mode.Visual) (haw : m.commandState.awaitingMotion = true) :
    Inv (m.handleMotionCommand k) := by
  have hpre := preInv_of_inv h
  have hcount : 1 ≤ m.commandState.count := h.2.2.2.2.2.2 haw
  have hrow : m.cursor.Row < m.content.length := h.2.1.1
  have hc : m.content ≠ [] := h.1
  have hmc : 1 ≤ (if m.commandState.motionCount = 0 then 1 else m.commandState.motionCount) := by
    split_ifs <;> omega
  unfold Model.handleMotionCommand
  dsimp only
  by_cases hline : keyStr k = m.commandState.operator
  · rw [if_pos hline]
    exact executeLineOperation_inv m _ hpre hrow (Nat.mul_pos hcount hmc) hmv
  · rw [if_neg hline]
    split <;>
      first
        | exact inv_clearCmd h
        | (rename_i endPos heq
           exact inv_revalidate' (preInv_clearCmd (executeOperation_preInv m _ _ hpre hmv hrow
             (motionTarget_row m _ _ hc hrow endPos heq))))

lemma startInsertSession_selection (m : Model) :
    m.startInsertSession.selection = m.selection := by
  rw [startInsertSession_eq]

lemma insertNewLineBelow_selection (m : Model) :
    m.insertNewLineBelow.selection = m.selection := rfl

lemma insertNewLineAbove_selection (m : Model) :
    m.insertNewLineAbove.selection = m.selection := rfl

set_option maxHeartbeats 3200000 in
lemma normalDispatch_inv (m : Model) (k : Key) (h : Inv m)
    (hm : m.mode = Mode.Normal) : Inv (m.normalDispatch k) := by
  have hmv : m.mode ≠ Mode.Visual := by
    rw [hm]
    exact fun hx => Mode.noConfusion hx
  have hpre := preInv_of_inv h
  have hn : m.selection = none := selOK_normal_none h.2.2.1 hmv
  unfold Model.normalDispatch
  dsimp only
  by_cases c1 : keyStr k = ['h'] ∨ keyStr k = ['l', 'e', 'f', 't']
  · rw [if_pos c1]
    exact inv_moveTail hpre _
  · rw [if_neg c1]
    by_cases c2 : keyStr k = ['j'] ∨ keyStr k = ['d', 'o', 'w', 'n']
    · rw [if_pos c2]
      exact inv_moveTail hpre _
    · rw [if_neg c2]
      by_cases c3 : keyStr k = ['k'] ∨ keyStr k = ['u', 'p']
      · rw [if_pos c3]
        exact inv_moveTail hpre _
      · rw [if_neg c3]
        by_cases c4 : keyStr k = ['l'] ∨ keyStr k = ['r', 'i', 'g', 'h', 't']
        · rw [if_pos c4]
          exact inv_moveTail hpre _
        · rw [if_neg c4]
          by_cases c5 : keyStr k = ['w']
          · rw [if_pos c5]
            exact inv_moveTail hpre _
          · rw [if_neg c5]
            by_cases c6 : keyStr k = ['W']
            · rw [if_pos c6]
              exact inv_moveTail hpre _
            · rw [if_neg c6]
              by_cases c7 : keyStr k = ['b']
              · rw [if_pos c7]
                exact inv_moveTail hpre _
              · rw [if_neg c7]
                by_cases c8 : keyStr k = ['B']
                · rw [if_pos c8]
                  exact inv_moveTail hpre _
                · rw [if_neg c8]
                  by_cases c9 : keyStr k = ['e']
                  · rw [if_pos c9]
                    exact inv_moveTail hpre _
                  · rw [if_neg c9]
                    by_cases c10 : keyStr k = ['E']
                    · rw [if_pos c10]
                      exact inv_moveTail hpre _
                    · rw [if_neg c10]
                      by_cases c11 : keyStr k = ['0']
                      · rw [if_pos c11]
                        exact inv_moveTail hpre _
                      · rw [if_neg c11]
                        by_cases c12 : keyStr k = ['^']
                        · rw [if_pos c12]
                          exact inv_moveTail hpre _
                        · rw [if_neg c12]
                          by_cases c13 : keyStr k = ['_']
                          · rw [if_pos c13]
                            exact inv_moveTail hpre _
                          · rw [if_neg c13]
                            by_cases c14 : keyStr k = ['$']
                            · rw [if_pos c14]
                              exact inv_moveTail hpre _
                            · rw [if_neg c14]
                              by_cases c15 : keyStr k = ['g']
                              · rw [if_pos c15]
                                exact inv_handleGCommand h
                              · rw [if_neg c15]
                                by_cases c16 : keyStr k = ['G']
                                · rw [if_pos c16]
                                  exact inv_moveTail hpre _
                                · rw [if_neg c16]
                                  by_cases c17 : keyStr k = ['f']
                                  · rw [if_pos c17]
                                    exact h
                                  · rw [if_neg c17]
                                    by_cases c18 : keyStr k = ['F']
                                    · rw [if_pos c18]
                                      exact h
                                    · rw [if_neg c18]
                                      by_cases c19 : keyStr k = ['t']
                                      · rw [if_pos c19]
                                        exact h
                                      · rw [if_neg c19]
                                        by_cases c20 : keyStr k = ['T']
                                        · rw [if_pos c20]
                                          exact h
                                        · rw [if_neg c20]
                                          by_cases c21 : keyStr k = [';']
                                          · rw [if_pos c21]
                                            exact inv_cursorTail hpre _
                                          · rw [if_neg c21]
                                            by_cases c22 : keyStr k = [',']
                                            · rw [if_pos c22]
                                              exact inv_cursorTail hpre _
                                            · rw [if_neg c22]
                                              by_cases c23 : keyStr k = ['i']
                                              · rw [if_pos c23]
                                                exact inv_normalTail' (preInv_intoInsert hpre hn)
                                              · rw [if_neg c23]
                                                by_cases c24 : keyStr k = ['I']
                                                · rw [if_pos c24]
                                                  exact inv_normalTail' (preInv_insertMove hpre hn _)
                                                · rw [if_neg c24]
                                                  by_cases c25 : keyStr k = ['a']
                                                  · rw [if_pos c25]
                                                    exact inv_normalTail' (preInv_insertMove hpre hn _)
                                                  · rw [if_neg c25]
                                                    by_cases c26 : keyStr k = ['A']
                                                    · rw [if_pos c26]
                                                      exact inv_normalTail' (preInv_insertMove hpre hn _)
                                                    · rw [if_neg c26]
                                                      by_cases c27 : keyStr k = ['o']
                                                      · rw [if_pos c27]
                                                        refine inv_normalTail' (preInv_setInsert
                                                          (insertNewLineBelow_preInv _ (startInsertSession_preInv hpre) ?_) ?_)
                                                        · rw [(startInsertSession_frame m).2.2.2.1]
                                                          exact hmv
                                                        · rw [insertNewLineBelow_selection, startInsertSession_selection]
                                                          exact hn
                                                      · rw [if_neg c27]
                                                        by_cases c28 : keyStr k = ['O']
                                                        · rw [if_pos c28]
                                                          refine inv_normalTail' (preInv_setInsert
                                                            (insertNewLineAbove_preInv _ (startInsertSession_preInv hpre) ?_) ?_)
                                                          · rw [(startInsertSession_frame m).2.2.2.1]
                                                            exact hmv
                                                          · rw [insertNewLineAbove_selection, startInsertSession_selection]
                                                            exact hn
                                                        · rw [if_neg c28]
                                                          by_cases c29 : keyStr k = ['v']
                                                          · rw [if_pos c29]
                                                            refine inv_normalTail' ⟨h.1, ⟨fun hx => Option.noConfusion hx, fun sl hs => ?_⟩, ?_,
                                                              h.2.2.2.2.1, h.2.2.2.2.2.1, h.2.2.2.2.2.2⟩
                                                            · have hs2 : some (⟨m.cursor, m.cursor⟩ : Selection) = some sl := hs
                                                              injection hs2 with h3
                                                              subst h3
                                                              exact ⟨rfl, h.2.1.1, h.2.1.1⟩
                                                            · refine histOK_of ?_ h.2.2.2.1
                                                              rfl
                                                          · rw [if_neg c29]
                                                            by_cases c30 : keyStr k = ['x']
                                                            · rw [if_pos c30]
                                                              exact inv_normalTail' (deleteChar_preInv m _ hpre hmv)
                                                            · rw [if_neg c30]
                                                              by_cases c31 : keyStr k = ['r']
                                                              · rw [if_pos c31]
                                                                refine inv_keepAll ?_ ?_ ?_ ?_ ?_ ?_ ?_ h <;> rfl
                                                              · rw [if_neg c31]
                                                                by_cases c32 : keyStr k = ['d']
                                                                · rw [if_pos c32]
                                                                  refine inv_setOperator h _ _ ?_
                                                                  split_ifs <;> omega
                                                                · rw [if_neg c32]
                                                                  by_cases c33 : keyStr k = ['D']
                                                                  · rw [if_pos c33]
                                                                    exact inv_normalTail' (deleteToEndOfLine_preInv m hpre)
                                                                  · rw [if_neg c33]
                                                                    by_cases c34 : keyStr k = ['C']
                                                                    · rw [if_pos c34]
                                                                      exact inv_normalTail' (changeToEndOfLine_preInv m hpre hmv)
                                                                    · rw [if_neg c34]
                                                                      by_cases c35 : keyStr k = ['Y']
                                                                      · rw [if_pos c35]
                                                                        exact inv_normalTail' (yankLine_preInv m hpre)
                                                                      · rw [if_neg c35]
                                                                        by_cases c36 : keyStr k = ['y']
                                                                        · rw [if_pos c36]
                                                                          refine inv_setOperator h _ _ ?_
                                                                          split_ifs <;> omega
                                                                        · rw [if_neg c36]
                                                                          by_cases c37 : keyStr k = ['c']
                                                                          · rw [if_pos c37]
                                                                            refine inv_setOperator h _ _ ?_
                                                                            split_ifs <;> omega
                                                                          · rw [if_neg c37]
                                                                            by_cases c38 : keyStr k = ['p']
                                                                            · rw [if_pos c38]
                                                                              exact inv_normalTail' (pasteAfter_preInv m hpre hmv)
                                                                            · rw [if_neg c38]
                                                                              by_cases c39 : keyStr k = ['P']
                                                                              · rw [if_pos c39]
                                                                                exact inv_normalTail' (pasteBefore_preInv m hpre hmv)
                                                                              · rw [if_neg c39]
                                                                                by_cases c40 : keyStr k = ['u']
                                                                                · rw [if_pos c40]
                                                                                  exact inv_normalTail' (undo_preInv m hpre hmv)
                                                                                · rw [if_neg c40]
                                                                                  by_cases c41 : keyStr k = ['c', 't', 'r', 'l', '+', 'r']
                                                                                  · rw [if_pos c41]
                                                                                    exact inv_normalTail' (redo_preInv m hpre hmv)
                                                                                  · rw [if_neg c41]
                                                                                    exact inv_normalTail' hpre

end Vim

namespace Vim

lemma preInv_adjust_cursor {b : Model} (h : PreInv b) (p : Position) :
    PreInv (Model.adjustScroll { b with cursor := p }) := by
  refine preInv_keep ?_ ?_ ?_ ?_ ?_ ?_ h
  · rw [adjustScroll_content]
  · rw [adjustScroll_selection]
  · rw [adjustScroll_mode]
  · rw [adjustScroll_undoHistory]
  · rw [adjustScroll_completionState]
  · rw [adjustScroll_commandState]

lemma preInv_of_sameCore' {a b : Model} (hk : SameCore a b)
    (hi : ItemsOK a → ItemsOK b) (h : PreInv a) : PreInv b := by
  obtain ⟨hc, _hp, hs, hm, hu, hq⟩ := hk
  refine ⟨by rw [hc]; exact h.1, selOK_of hs hm (by rw [hc]) h.2.1,
    histOK_of (by rw [hu]) h.2.2.1, ?_, hi h.2.2.2.2.1, ?_⟩
  · unfold HistIdxOK at *
    rw [hu]
    exact h.2.2.2.1
  · unfold CmdOK at *
    rw [hq]
    exact h.2.2.2.2.2

lemma escInsert_preInv {m : Model} (h : Inv m) (hn : m.selection = none) :
    PreInv { ({ m with completionState := m.completionState.Reset } : Model).endInsertSession
             with mode := Mode.Normal } := by
  have hma : HistOK { m with completionState := m.completionState.Reset } := by
    refine histOK_of ?_ h.2.2.2.1
    rfl
  have hxa : HistIdxOK { m with completionState := m.completionState.Reset } := h.2.2.2.2.1
  have hca : ({ m with completionState := m.completionState.Reset } : Model).content ≠ [] := h.1
  obtain ⟨e1, _e2, e3, _e4, e5, e6, e7, e8⟩ := endInsertSession_facts _ hma hxa hca
  refine ⟨?_, selOK_none ?_ (fun hx => Mode.noConfusion hx), ?_, e8, ?_, ?_⟩
  · show ({ m with completionState := m.completionState.Reset } : Model).endInsertSession.content ≠ []
    rw [e1]
    exact hca
  · show ({ m with completionState := m.completionState.Reset } : Model).endInsertSession.selection = none
    rw [e3]
    exact hn
  · refine histOK_of ?_ e7
    rfl
  · unfold ItemsOK
    show ({ m with completionState := m.completionState.Reset } : Model).endInsertSession.completionState.Items = []
    rw [e5]
    rfl
  · unfold CmdOK
    show ({ m with completionState := m.completionState.Reset } : Model).endInsertSession.commandState.awaitingMotion = true
      → 1 ≤ ({ m with completionState := m.completionState.Reset } : Model).endInsertSession.commandState.count
    rw [e6]
    exact h.2.2.2.2.2.2

lemma visualMove_preInv {m : Model} (h : Inv m) (hm : m.mode = Mode.Visual) (p : Position)
    (hp : p.Row < m.content.length) :
    PreInv
      { Model.adjustScroll { m with cursor := p } with
        selection :=
          (Model.adjustScroll { m with cursor := p }).selection.map
            (fun (s : Selection) =>
              { s with End := (Model.adjustScroll { m with cursor := p }).cursor }) } := by
  refine ⟨?_, ⟨?_, ?_⟩, ?_, ?_, ?_, ?_⟩
  · dsimp only
    rw [adjustScroll_content]
    exact h.1
  · intro hx
    dsimp only at hx
    rw [adjustScroll_selection] at hx
    dsimp only at hx
    rw [Option.map_eq_none'] at hx
    exact absurd hm (h.2.2.1.1 hx)
  · intro sl' hs'
    dsimp only at hs'
    rw [adjustScroll_selection] at hs'
    dsimp only at hs'
    rw [Option.map_eq_some'] at hs'
    obtain ⟨q, hq1, hq2⟩ := hs'
    have hrq := h.2.2.1.2 q hq1
    subst hq2
    refine ⟨?_, ?_, ?_⟩
    · dsimp only
      rw [adjustScroll_mode]
      exact hm
    · dsimp only
      rw [adjustScroll_content]
      exact hrq.2.1
    · dsimp only
      rw [adjustScroll_content, adjustScroll_cursor]
      exact hp
  · refine histOK_of ?_ h.2.2.2.1
    dsimp only
    rw [adjustScroll_undoHistory]
  · unfold HistIdxOK
    dsimp only
    rw [adjustScroll_undoHistory]
    exact h.2.2.2.2.1
  · unfold ItemsOK
    dsimp only
    rw [adjustScroll_completionState]
    exact h.2.2.2.2.2.1
  · unfold CmdOK
    dsimp only
    rw [adjustScroll_commandState]
    exact h.2.2.2.2.2.2

end Vim

namespace Vim

set_option maxHeartbeats 1600000 in
lemma handleVisualMode_inv (m : Model) (k : Key) (h : Inv m)
    (hm : m.mode = Mode.Visual) : Inv (m.handleVisualMode k) := by
  have hpre := preInv_of_inv h
  have hrow : m.cursor.Row < m.content.length := h.2.1.1
  unfold Model.handleVisualMode
  dsimp only
  by_cases c1 : keyStr k = ['e', 's', 'c']
  · rw [if_pos c1]
    refine inv_revalidate' ⟨h.1, selOK_none rfl (fun hx => Mode.noConfusion hx), ?_,
      h.2.2.2.2.1, h.2.2.2.2.2.1, h.2.2.2.2.2.2⟩
    refine histOK_of ?_ h.2.2.2.1
    rfl
  · rw [if_neg c1]
    by_cases c2 : keyStr k = ['h'] ∨ keyStr k = ['l', 'e', 'f', 't']
    · rw [if_pos c2]
      exact inv_revalidate' (visualMove_preInv h hm _ (by rw [moveLeft_row]; exact hrow))
    · rw [if_neg c2]
      by_cases c3 : keyStr k = ['j'] ∨ keyStr k = ['d', 'o', 'w', 'n']
      · rw [if_pos c3]
        exact inv_revalidate' (visualMove_preInv h hm _ (moveDown_lt m 1 h.1))
      · rw [if_neg c3]
        by_cases c4 : keyStr k = ['k'] ∨ keyStr k = ['u', 'p']
        · rw [if_pos c4]
          exact inv_revalidate' (visualMove_preInv h hm _ (moveUp_lt m 1 h.1))
        · rw [if_neg c4]
          by_cases c5 : keyStr k = ['l'] ∨ keyStr k = ['r', 'i', 'g', 'h', 't']
          · rw [if_pos c5]
            exact inv_revalidate' (visualMove_preInv h hm _ (by rw [moveRight_row]; exact hrow))
          · rw [if_neg c5]
            by_cases c6 : keyStr k = ['d'] ∨ keyStr k = ['x']
            · rw [if_pos c6]
              refine inv_revalidate' ?_
              obtain ⟨d1, d2, d3, d4, d5⟩ := deleteSelection_facts m hpre
              refine ⟨d1, selOK_none rfl (fun hx => Mode.noConfusion hx), ?_, d3, ?_, ?_⟩
              · refine histOK_of ?_ d2
                rfl
              · unfold ItemsOK
                show m.deleteSelection.completionState.Items = []
                rw [d4]
                exact h.2.2.2.2.2.1
              · unfold CmdOK
                show m.deleteSelection.commandState.awaitingMotion = true
                  → 1 ≤ m.deleteSelection.commandState.count
                rw [d5]
                exact h.2.2.2.2.2.2
            · rw [if_neg c6]
              by_cases c7 : keyStr k = ['y']
              · rw [if_pos c7]
                have hy := yankSelection_preInv m hpre
                refine inv_revalidate' ⟨hy.1, selOK_none rfl (fun hx => Mode.noConfusion hx),
                  ?_, hy.2.2.2.1, hy.2.2.2.2.1, hy.2.2.2.2.2⟩
                refine histOK_of ?_ hy.2.2.1
                rfl
              · rw [if_neg c7]
                exact inv_revalidate' hpre

end Vim

namespace Vim

set_option maxHeartbeats 1600000 in
lemma insertNormalHandling_inv (m : Model) (k : Key) (h : Inv m)
    (hmi : m.mode = Mode.Insert) : Inv (m.insertNormalHandling k) := by
  have hmv : m.mode ≠ Mode.Visual := by
    rw [hmi]
    exact fun hx => Mode.noConfusion hx
  have hpre := preInv_of_inv h
  have hn : m.selection = none := selOK_normal_none h.2.2.1 hmv
  have hrow : m.cursor.Row < m.content.length := h.2.1.1
  unfold Model.insertNormalHandling
  dsimp only
  by_cases c1 : keyStr k = ['e', 's', 'c']
  · rw [if_pos c1]
    exact inv_revalidate' (preInv_adjust_cursor (escInsert_preInv h hn) _)
  · rw [if_neg c1]
    by_cases c2 : keyStr k = ['e', 'n', 't', 'e', 'r']
    · rw [if_pos c2]
      exact inv_revalidate' (insertNewLine_preInv m hpre hmv)
    · rw [if_neg c2]
      by_cases c3 : keyStr k = ['b', 'a', 'c', 'k', 's', 'p', 'a', 'c', 'e']
      · rw [if_pos c3]
        refine inv_revalidate' ?_
        obtain ⟨hk, hi⟩ := checkAndTriggerCompletion_core m.backspace
        exact preInv_of_sameCore' hk hi (backspace_preInv m hpre hmv hrow)
      · rw [if_neg c3]
        by_cases c4 : keyStr k = ['t', 'a', 'b']
        · rw [if_pos c4]
          exact inv_revalidate' (insertText_preInv m _ hpre)
        · rw [if_neg c4]
          by_cases c5 : keyStr k = ['l', 'e', 'f', 't']
          · rw [if_pos c5]
            refine inv_revalidate' ?_
            obtain ⟨hk, hi⟩ :=
              checkAndTriggerCompletion_core (Model.adjustScroll { m with cursor := m.moveLeft 1 })
            exact preInv_of_sameCore' hk hi (preInv_adjust_cursor hpre _)
          · rw [if_neg c5]
            by_cases c6 : keyStr k = ['r', 'i', 'g', 'h', 't']
            · rw [if_pos c6]
              refine inv_revalidate' ?_
              obtain ⟨hk, hi⟩ :=
                checkAndTriggerCompletion_core (Model.adjustScroll { m with cursor := m.moveRight 1 })
              exact preInv_of_sameCore' hk hi (preInv_adjust_cursor hpre _)
            · rw [if_neg c6]
              by_cases c7 : keyStr k = ['u', 'p']
              · rw [if_pos c7]
                refine inv_revalidate' ?_
                have ha := preInv_adjust_cursor hpre (m.moveUp 1)
                refine ⟨ha.1, ?_, ?_, ha.2.2.2.1, ?_, ha.2.2.2.2.2⟩
                · refine selOK_of ?_ ?_ ?_ ha.2.1 <;> rfl
                · refine histOK_of ?_ ha.2.2.1
                  rfl
                · exact rfl
              · rw [if_neg c7]
                by_cases c8 : keyStr k = ['d', 'o', 'w', 'n']
                · rw [if_pos c8]
                  refine inv_revalidate' ?_
                  have ha := preInv_adjust_cursor hpre (m.moveDown 1)
                  refine ⟨ha.1, ?_, ?_, ha.2.2.2.1, ?_, ha.2.2.2.2.2⟩
                  · refine selOK_of ?_ ?_ ?_ ha.2.1 <;> rfl
                  · refine histOK_of ?_ ha.2.2.1
                    rfl
                  · exact rfl
                · rw [if_neg c8]
                  split
                  all_goals first
                    | exact inv_revalidate' hpre
                    | (split_ifs <;>
                         first
                           | exact inv_revalidate' (insertText_preInv m _ hpre)
                           | exact inv_revalidate' (preInv_of_sameCore
                               (triggerCompletion_core _ _).1 (triggerCompletion_core _ _).2
                               (insertText_preInv m _ hpre)))

end Vim

namespace Vim

set_option maxHeartbeats 1600000 in
lemma handleInsertMode_inv (m : Model) (k : Key) (h : Inv m)
    (hmi : m.mode = Mode.Insert) : Inv (m.handleInsertMode k) := by
  have hmn : m.mode ≠ Mode.Normal := by
    rw [hmi]
    exact fun hx => Mode.noConfusion hx
  have hmv : m.mode ≠ Mode.Visual := by
    rw [hmi]
    exact fun hx => Mode.noConfusion hx
  have hpre := preInv_of_inv h
  unfold Model.handleInsertMode
  dsimp only
  by_cases hact : m.completionState.Active = true
  · rw [if_pos hact]
    by_cases c1 : keyStr k = ['e', 's', 'c']
    · rw [if_pos c1]
      refine inv_keepAll ?_ ?_ ?_ ?_ ?_ ?_ ?_ h <;>
        first
          | rfl
          | (rw [h.2.2.2.2.2.1]
             exact rfl)
    · rw [if_neg c1]
      by_cases c2 : keyStr k = ['c', 't', 'r', 'l', '+', 'n'] ∨ keyStr k = ['d', 'o', 'w', 'n']
      · rw [if_pos c2]
        refine inv_keepAll ?_ ?_ ?_ ?_ ?_ ?_ ?_ h <;>
          first
            | rfl
            | exact selectNext_items _
      · rw [if_neg c2]
        by_cases c3 : keyStr k = ['c', 't', 'r', 'l', '+', 'p'] ∨ keyStr k = ['u', 'p']
        · rw [if_pos c3]
          refine inv_keepAll ?_ ?_ ?_ ?_ ?_ ?_ ?_ h <;>
            first
              | rfl
              | exact selectPrev_items _
        · rw [if_neg c3]
          by_cases c4 : keyStr k = ['c', 't', 'r', 'l', '+', 'y'] ∨ keyStr k = ['e', 'n', 't', 'e', 'r']
          · rw [if_pos c4]
            rw [getSelectedItem_of_itemsOK m h.2.2.2.2.2.1]
            exact h
          · rw [if_neg c4]
            by_cases c5 : keyStr k = ['b', 'a', 'c', 'k', 's', 'p', 'a', 'c', 'e']
            · rw [if_pos c5]
              obtain ⟨hk, hi⟩ := checkAndTriggerCompletion_core m.backspace
              exact inv_of_preInv_cursorOK
                (preInv_of_sameCore' hk hi (backspace_preInv m hpre hmv h.2.1.1))
                (cursorOK_of_sameCore hk (backspace_cursorOK m h.2.1 hmn))
            · rw [if_neg c5]
              by_cases c6 : keyStr k = ['l', 'e', 'f', 't'] ∨ keyStr k = ['r', 'i', 'g', 'h', 't']
              · rw [if_pos c6]
                exact insertNormalHandling_inv m k h hmi
              · rw [if_neg c6]
                split_ifs with hr
                · obtain ⟨hk, hi⟩ := updateCompletion_core (m.insertText (keyRunes k))
                  exact inv_of_preInv_cursorOK
                    (preInv_of_sameCore' hk hi (insertText_preInv m _ hpre))
                    (cursorOK_of_sameCore hk (insertText_cursorOK m _ h.2.1 hmn))
                · exact insertNormalHandling_inv m k h hmi
  · rw [if_neg hact]
    exact insertNormalHandling_inv m k h hmi

/-- The replace loop preserves the line length when the replacement string is
a single character (as it always is: the handler guards on key length 1). -/
lemma replaceLoopAux_length (s : Str) (col : Nat) (hs : s.length = 1) :
    ∀ (fuel i : Nat) (line : Str), (replaceLoopAux s col fuel i line).length = line.length := by
  intro fuel
  induction fuel with
  | zero =>
    intro i line
    rfl
  | succ f ih =>
    intro i line
    unfold replaceLoopAux
    split_ifs with hcl
    · rw [ih (i + 1) _]
      simp only [List.length_append, List.length_take, List.length_drop, hs]
      omega
    · rfl

lemma replaceCharacter_content_length (m : Model) (s : Str) (c : Nat) :
    (m.replaceCharacter s c).content.length = m.content.length := by
  unfold Model.replaceCharacter
  dsimp only
  split_ifs
  · rfl
  · rw [(saveUndoState_frame _).1]
    exact List.length_set _ _ _

lemma replaceCharacter_lineAt (m : Model) (s : Str) (c : Nat) (hs : s.length = 1) :
    ((m.replaceCharacter s c).content.getD m.cursor.Row []).length
      = (m.content.getD m.cursor.Row []).length := by
  unfold Model.replaceCharacter
  dsimp only
  split_ifs with hr
  · rfl
  · rw [(saveUndoState_frame _).1]
    dsimp only
    push_neg at hr
    rw [getD_set_self _ _ _ _ hr]
    exact replaceLoopAux_length s m.cursor.Col hs c 0 _

/-- The caller-visible effect of the discarded `m.replaceCharacter(...)` call
(the rewritten line, via the shared slice backing array) preserves the
invariant. -/
lemma replaceApply_inv (m : Model) (s : Str) (hs : s.length = 1) (h : Inv m) :
    Inv { m with content := (m.replaceCharacter s m.replaceCount).content,
                 awaitingReplaceChar := false, replaceCount := 0 } := by
  have hlen := replaceCharacter_content_length m s m.replaceCount
  have hline := replaceCharacter_lineAt m s m.replaceCount hs
  refine ⟨?_, ⟨?_, ?_, ?_⟩, ?_, ?_, h.2.2.2.2.1, h.2.2.2.2.2.1, h.2.2.2.2.2.2⟩
  · apply ne_nil_of_len
    show 0 < (m.replaceCharacter s m.replaceCount).content.length
    rw [hlen]
    exact len_ne_nil h.1
  · show m.cursor.Row < (m.replaceCharacter s m.replaceCount).content.length
    rw [hlen]
    exact h.2.1.1
  · show m.cursor.Col ≤ ((m.replaceCharacter s m.replaceCount).content.getD m.cursor.Row []).length
    rw [hline]
    exact h.2.1.2.1
  · intro hm hne
    show m.cursor.Col < ((m.replaceCharacter s m.replaceCount).content.getD m.cursor.Row []).length
    rw [hline]
    refine h.2.1.2.2 hm ?_
    intro hnil
    apply hne
    show (m.replaceCharacter s m.replaceCount).content.getD m.cursor.Row [] = []
    apply List.length_eq_zero.mp
    rw [hline]
    show (m.content.getD m.cursor.Row []).length = 0
    rw [show m.content.getD m.cursor.Row [] = m.lineAt m.cursor.Row from rfl, hnil]
    rfl
  · refine selOK_of ?_ ?_ ?_ h.2.2.1
    · rfl
    · rfl
    · show (m.replaceCharacter s m.replaceCount).content.length = m.content.length
      exact hlen
  · refine histOK_of ?_ h.2.2.2.1
    rfl

set_option maxHeartbeats 1600000 in
lemma handleNormalMode_inv (m : Model) (k : Key) (h : Inv m)
    (hm : m.mode = Mode.Normal) : Inv (m.handleNormalMode k) := by
  have hmv : m.mode ≠ Mode.Visual := by
    rw [hm]
    exact fun hx => Mode.noConfusion hx
  unfold Model.handleNormalMode
  split_ifs with h1 h2 h3 h4 h5 <;>
    first
      | exact h
      | exact replaceApply_inv m _ (by assumption) h
      | (refine inv_keepAll ?_ ?_ ?_ ?_ ?_ ?_ ?_ h <;> rfl)
      | exact handleMotionCommand_inv m k h hmv (by assumption)
      | exact normalDispatch_inv m k h hm
      | (refine ⟨h.1, ?_, ?_, ?_, h.2.2.2.2.1, h.2.2.2.2.2.1, fun hx => h.2.2.2.2.2.2 hx⟩
         · refine cursorOK_of ?_ ?_ ?_ h.2.1 <;> rfl
         · refine selOK_of ?_ ?_ ?_ h.2.2.1 <;> rfl
         · refine histOK_of ?_ h.2.2.2.1
           rfl)

lemma step_inv (m : Model) (k : Key) (h : Inv m) : Inv (m.step k) := by
  unfold Model.step
  cases hm : m.mode with
  | Normal => exact handleNormalMode_inv m k h hm
  | Insert => exact handleInsertMode_inv m k h hm
  | Visual => exact handleVisualMode_inv m k h hm

lemma inv_New : Inv New := by
  refine ⟨by decide, ⟨by decide, by decide, fun hx _ => absurd hx (by decide)⟩,
    ⟨fun _ => by decide, fun s hs => ?_⟩, ?_, ⟨by decide, by decide⟩, rfl,
    fun hx => absurd hx (by decide)⟩
  · have hsel : New.selection = none := rfl
    rw [hsel] at hs
    cases hs
  · intro st hst
    have hs2 : New.undoHistory.states = [⟨[[]], ⟨0, 0⟩⟩] := rfl
    rw [hs2] at hst
    rw [List.mem_singleton] at hst
    subst hst
    decide

lemma reachable_inv {m : Model} (h : Reachable m) : Inv m := by
  induction h with
  | init => exact inv_New
  | step hr k ih => exact step_inv _ k ih

end Vim

namespace Vim

/-- C8: for every engine state reachable by processing key events from
construction, the cursor satisfies `row < lineCount` and
`col ≤ length(line[row])`, and in Normal mode on a non-empty line additionally
`col ≤ length(line[row]) - 1`; rows and columns are naturals, so `0 ≤ row` and
`0 ≤ col` hold by typing. -/
theorem reachable_cursor_bounds (m : Model) (h : Reachable m) :
    m.cursor.Row < m.content.length
    ∧ m.cursor.Col ≤ (m.lineAt m.cursor.Row).length
    ∧ (m.mode = Mode.Normal → m.lineAt m.cursor.Row ≠ [] →
        m.cursor.Col < (m.lineAt m.cursor.Row).length) := by
  have hi := reachable_inv h
  exact ⟨hi.2.1.1, hi.2.1.2.1, hi.2.1.2.2⟩

/-- Witness for C8 at a concrete reachable state: the fresh engine after
pressing Escape (entering Normal mode) and typing `x`. -/
theorem reachable_cursor_bounds_witness :
    ((New.step Key.esc).step (Key.chars ['x'])).cursor.Row
        < ((New.step Key.esc).step (Key.chars ['x'])).content.length
    ∧ ((New.step Key.esc).step (Key.chars ['x'])).cursor.Col
        ≤ (((New.step Key.esc).step (Key.chars ['x'])).lineAt
            ((New.step Key.esc).step (Key.chars ['x'])).cursor.Row).length
    ∧ (((New.step Key.esc).step (Key.chars ['x'])).mode = Mode.Normal →
        ((New.step Key.esc).step (Key.chars ['x'])).lineAt
            ((New.step Key.esc).step (Key.chars ['x'])).cursor.Row ≠ [] →
        ((New.step Key.esc).step (Key.chars ['x'])).cursor.Col
          < (((New.step Key.esc).step (Key.chars ['x'])).lineAt
              ((New.step Key.esc).step (Key.chars ['x'])).cursor.Row).length) :=
  reachable_cursor_bounds ((New.step Key.esc).step (Key.chars ['x']))
    (Reachable.step (Reachable.step Reachable.init Key.esc) (Key.chars ['x']))

end Vim
